import Mathlib

/-!
Shallow embedding of the SignalFx metrics converter
(exporter/signalfxexporter/translation/converter.go) and proofs of the
specified properties.  The Go code is translated definition by definition:
pdata slices that may contain nil entries become lists of options, Go
machine-integer casts are made explicit, and the small pieces of behaviour
that live in dependencies (semantic-convention constants, attribute
rendering, strconv float formatting) are modelled with documented
definitions.
-/

namespace SfxTranslation

/-- Go float64 values, modelled by their observable behaviour in this
converter: the code never computes with float values, it only stores them in
datapoints and renders explicit bucket bounds through strconv.FormatFloat
(see float64ToDimValue).  posInf is math.Inf(1); finite r stands for a
finite float whose shortest round-trippable rendering (FormatFloat with the
'g' format and precision -1) is the string r. -/
inductive Float64 where
  | posInf
  | finite (render : String)
deriving DecidableEq, Repr

/-- Model of strconv.FormatFloat(f, 'g', -1, 64) as used by
float64ToDimValue in the Go code: shortest round-trippable decimal form;
positive infinity renders as "+Inf". -/
def float64ToDimValue (f : Float64) : String :=
  match f with
  | .posInf => "+Inf"
  | .finite r => r

/-- upper bound dimension key for histogram buckets (converter.go). -/
def upperBoundDimensionKey : String := "upper_bound"

/-- infinity bound dimension value used on all histograms (converter.go):
float64ToDimValue(math.Inf(1)). -/
def infinityBoundSFxDimValue : String := float64ToDimValue .posInf

/-- Go int64(x) conversion of a uint64 value: two's-complement wraparound. -/
def int64ofUInt64 (n : Nat) : Int :=
  let m : Nat := n % 2 ^ 64
  if m < 2 ^ 63 then (m : Int) else (m : Int) - 2 ^ 64

/-- timestampToSignalFx (converter.go): int64(ts) / 1e6, converting
nanoseconds to milliseconds.  Go division on int64 truncates toward zero,
which is Int.tdiv. -/
def timestampToSignalFx (ts : Nat) : Int :=
  Int.tdiv (int64ofUInt64 ts) 1000000

/-- An sfxpb.Dimension: one key/value pair. -/
structure Dimension where
  key : String
  value : String
deriving DecidableEq, Repr

/-- The sfxpb metric types used by the conversion (the protobuf enum has
more values; only these three are produced). -/
inductive MetricType where
  | gauge
  | counter
  | cumulativeCounter
deriving DecidableEq, Repr

/-- An sfxpb.Datum: the Go struct holds optional pointers IntValue and
DoubleValue; we keep both fields so that "integer-typed" versus
"float-typed" output values are observable. -/
structure Datum where
  intValue : Option Int
  doubleValue : Option Float64
deriving DecidableEq, Repr

/-- An sfxpb.DataPoint (the flat output point). -/
structure DataPoint where
  metric : String
  metricType : Option MetricType
  timestamp : Int
  dimensions : List Dimension
  value : Datum
deriving DecidableEq, Repr

/-! ## The pdata input model -/

/-- pdata.AggregationTemporality. -/
inductive AggregationTemporality where
  | unspecified
  | delta
  | cumulative
deriving DecidableEq, Repr

/-- A pdata.StringMap (per-series label map): association list in the
order ForEach iterates it. -/
abbrev StringMap := List (String × String)

/-- A pdata.AttributeValue: string/bool/int/double typed value. -/
inductive AttributeValue where
  | str (s : String)
  | boolV (b : Bool)
  | intV (i : Int)
  | doubleV (d : Float64)
deriving DecidableEq, Repr

/-- A pdata.AttributeMap: association list in ForEach iteration order. -/
abbrev AttributeMap := List (String × AttributeValue)

/-- pdata AttributeMap.Get: first entry with the given key. -/
def AttributeMap.get (m : AttributeMap) (key : String) : Option AttributeValue :=
  (m.find? (fun kv => kv.1 == key)).map (fun kv => kv.2)

/-- pdata AttributeValue.StringVal: the string payload, or the zero value ""
when the attribute is not string-typed. -/
def AttributeValue.stringVal : AttributeValue → String
  | .str s => s
  | _ => ""

/-- A pdata.IntDataPoint. -/
structure IntDataPoint where
  labels : StringMap
  timestamp : Nat
  value : Int
deriving DecidableEq, Repr

/-- A pdata.DoubleDataPoint. -/
structure DoubleDataPoint where
  labels : StringMap
  timestamp : Nat
  value : Float64
deriving DecidableEq, Repr

/-- A pdata.IntHistogramDataPoint: count and bucket counts are uint64
(modelled as Nat), the sum is int64, the explicit bounds are float64. -/
structure IntHistogramDataPoint where
  labels : StringMap
  timestamp : Nat
  count : Nat
  sum : Int
  explicitBounds : List Float64
  bucketCounts : List Nat
deriving DecidableEq, Repr

/-- A pdata.DoubleHistogramDataPoint: like the int variant but the sum is
a float64. -/
structure DoubleHistogramDataPoint where
  labels : StringMap
  timestamp : Nat
  count : Nat
  sum : Float64
  explicitBounds : List Float64
  bucketCounts : List Nat
deriving DecidableEq, Repr

/-- A pdata.Metric's data: the DataType tag together with the
shape-specific payload (monotonicity, temporality, data points).  Slice
entries may be nil in pdata, hence the options. -/
inductive MetricData where
  | none_
  | intGauge (dps : List (Option IntDataPoint))
  | intSum (isMonotonic : Bool) (temporality : AggregationTemporality)
      (dps : List (Option IntDataPoint))
  | doubleGauge (dps : List (Option DoubleDataPoint))
  | doubleSum (isMonotonic : Bool) (temporality : AggregationTemporality)
      (dps : List (Option DoubleDataPoint))
  | intHistogram (temporality : AggregationTemporality)
      (dps : List (Option IntHistogramDataPoint))
  | doubleHistogram (temporality : AggregationTemporality)
      (dps : List (Option DoubleHistogramDataPoint))
deriving DecidableEq, Repr

/-- A pdata.Metric. -/
structure Metric where
  name : String
  data : MetricData
deriving DecidableEq, Repr

/-- A pdata.InstrumentationLibraryMetrics entry (its metrics slice; entries
may be nil). -/
structure InstrumentationLibraryMetrics where
  metrics : List (Option Metric)
deriving DecidableEq, Repr

/-- A pdata.ResourceMetrics: the resource's attributes plus the
instrumentation library metrics slice (entries may be nil). -/
structure ResourceMetrics where
  resourceAttributes : AttributeMap
  ilms : List (Option InstrumentationLibraryMetrics)
deriving DecidableEq, Repr

/-! ## Dependency constants and helpers -/

/-- Modelled from the collector dependency translator/conventions: semantic
convention key for the cloud account id. -/
def AttributeCloudAccount : String := "cloud.account.id"

/-- Modelled from the collector dependency: cloud region key. -/
def AttributeCloudRegion : String := "cloud.region"

/-- Modelled from the collector dependency: host id key. -/
def AttributeHostID : String := "host.id"

/-- Modelled from the collector dependency: cloud provider key. -/
def AttributeCloudProvider : String := "cloud.provider"

/-- Modelled from the collector dependency: AWS provider value. -/
def AttributeCloudProviderAWS : String := "aws"

/-- Modelled from the collector dependency: GCP provider value. -/
def AttributeCloudProviderGCP : String := "gcp"

/-- Modelled from the spec: the reserved access-token resource attribute key
(defined in internal/splunk of this repository, which is not under src/);
the spec calls it "a reserved security-token key ... never re-emitted".
Its exact text matters only in that it is a fixed key containing characters
outside the sanitizer's allowed set. -/
def SFxAccessTokenLabel : String := "com.splunk.signalfx.access_token"

/-- Modelled from the collector dependency
tracetranslator.AttributeValueToString(val, false): strings pass through,
bools and ints render in their usual decimal/boolean forms, doubles through
the same shortest-form float formatting as float64ToDimValue. -/
def attributeValueToString : AttributeValue → String
  | .str s => s
  | .boolV b => if b then "true" else "false"
  | .intV i => toString i
  | .doubleV d => float64ToDimValue d

/-- getStringAttr (converter.go). -/
def getStringAttr (attrs : AttributeMap) (key : String) : String :=
  match attrs.get key with
  | some a => a.stringVal
  | none => ""

/-! ## Key sanitization -/

/-- Model of Go unicode.IsLetter: exact on the ASCII range (A-Z, a-z);
codepoints above U+007F are treated as non-letters here.  Go's full Unicode
tables accept many non-ASCII letters; none of the properties proved below
depend on the behaviour above U+007F (idempotence holds for any letter
predicate, and the ASCII / fixed-key facts only involve ASCII). -/
def unicodeIsLetter (c : Char) : Bool :=
  ('A' ≤ c && c ≤ 'Z') || ('a' ≤ c && c ≤ 'z')

/-- Model of Go unicode.IsDigit: exact on the ASCII range (0-9); codepoints
above U+007F are treated as non-digits, with the same caveat as
unicodeIsLetter. -/
def unicodeIsDigit (c : Char) : Bool :=
  '0' ≤ c && c ≤ '9'

/-- Model of Go strings.Map for a rune mapping that never drops characters
(the converter's filterMap never returns a negative rune). -/
def stringsMap (f : Char → Char) (s : String) : String :=
  ⟨s.data.map f⟩

/-- filterKeyChars (converter.go): keep letters, digits, '_' and '-';
replace every other character with '_'. -/
def filterKeyChars (str : String) : String :=
  let filterMap := fun (r : Char) =>
    if unicodeIsLetter r || unicodeIsDigit r || r == '_' || r == '-' then r
    else '_'
  stringsMap filterMap str

/-- sanitizeDataPointDimensions (converter.go): rewrite every dimension key
of every datapoint through filterKeyChars.  The Go code mutates the
dimensions in place; the pure model returns the updated points.  (Shared
resource-level dimensions are filtered once per point that references them
in Go; since filterKeyChars is idempotent — proved below — the observable
keys agree with this per-point model.) -/
def sanitizeDataPointDimensions (dps : List DataPoint) : List DataPoint :=
  dps.map fun dp =>
    { dp with dimensions := dp.dimensions.map fun d => { d with key := filterKeyChars d.key } }

/-! ## Resource dimensions -/

/-- resourceAttributesToDimensions (converter.go): synthesize a cloud
identity dimension when possible, then emit the remaining attributes as
plain dimensions, always dropping the access token.  The Go switch
assigns a pair (initial dims, filter closure); the ForEach at the end is
the filterMap. -/
def resourceAttributesToDimensions (resourceAttr : AttributeMap) : List Dimension :=
  let accountID := getStringAttr resourceAttr AttributeCloudAccount
  let region := getStringAttr resourceAttr AttributeCloudRegion
  let instanceID := getStringAttr resourceAttr AttributeHostID
  let provider := getStringAttr resourceAttr AttributeCloudProvider
  let branch : List Dimension × (String → Bool) :=
    if provider = AttributeCloudProviderAWS then
      if instanceID = "" ∨ region = "" ∨ accountID = "" then ([], fun _ => true)
      else
        ([{ key := "AWSUniqueId",
            value := instanceID ++ "_" ++ region ++ "_" ++ accountID }],
         fun k =>
           k != AttributeCloudAccount && k != AttributeCloudRegion &&
           k != AttributeHostID && k != AttributeCloudProvider)
    else if provider = AttributeCloudProviderGCP then
      if accountID = "" ∨ instanceID = "" then ([], fun _ => true)
      else
        ([{ key := "gcp_id", value := accountID ++ "_" ++ instanceID }],
         fun k =>
           k != AttributeCloudAccount && k != AttributeHostID &&
           k != AttributeCloudProvider)
    else ([], fun _ => true)
  branch.1 ++ resourceAttr.filterMap (fun kv =>
    if kv.1 = SFxAccessTokenLabel then none
    else if !(branch.2 kv.1) then none
    else some { key := kv.1, value := attributeValueToString kv.2 })

/-! ## Shape conversion -/

/-- labelsToDimensions (converter.go): a fresh slice holding extraDims
followed by the per-series labels (returned unchanged when there are no
labels). -/
def labelsToDimensions (labels : StringMap) (extraDims : List Dimension) : List Dimension :=
  let dimensions := extraDims
  if labels.length = 0 then dimensions
  else dimensions ++ labels.map (fun kv => { key := kv.1, value := kv.2 })

/-- makeBaseDataPoint (converter.go): name and metric type from the metric;
the other fields hold Go zero values to be overwritten per point. -/
def fromMetricDataTypeToMetricType (metric : Metric) : Option MetricType :=
  match metric.data with
  | .intGauge _ => some .gauge
  | .doubleGauge _ => some .gauge
  | .intSum isMonotonic temporality _ =>
    if !isMonotonic then some .gauge
    else if temporality = .delta then some .counter
    else some .cumulativeCounter
  | .doubleSum isMonotonic temporality _ =>
    if !isMonotonic then some .gauge
    else if temporality = .delta then some .counter
    else some .cumulativeCounter
  | .intHistogram temporality _ =>
    if temporality = .delta then some .counter
    else some .cumulativeCounter
  | .doubleHistogram temporality _ =>
    if temporality = .delta then some .counter
    else some .cumulativeCounter
  | .none_ => none

/-- makeBaseDataPoint (converter.go). -/
def makeBaseDataPoint (m : Metric) : DataPoint :=
  { metric := m.name
    metricType := fromMetricDataTypeToMetricType m
    timestamp := 0
    dimensions := []
    value := { intValue := none, doubleValue := none } }

/-- convertIntDatapoints (converter.go): one flat point per non-nil input
point, copying the base point and setting timestamp, dimensions and the
integer value. -/
def convertIntDatapoints (inDps : List (Option IntDataPoint))
    (basePoint : DataPoint) (extraDims : List Dimension) : List DataPoint :=
  inDps.filterMap fun o =>
    o.map fun inDp =>
      { basePoint with
          timestamp := timestampToSignalFx inDp.timestamp
          dimensions := labelsToDimensions inDp.labels extraDims
          value := { basePoint.value with intValue := some inDp.value } }

/-- convertDoubleDatapoints (converter.go). -/
def convertDoubleDatapoints (inDps : List (Option DoubleDataPoint))
    (basePoint : DataPoint) (extraDims : List Dimension) : List DataPoint :=
  inDps.filterMap fun o =>
    o.map fun inDp =>
      { basePoint with
          timestamp := timestampToSignalFx inDp.timestamp
          dimensions := labelsToDimensions inDp.labels extraDims
          value := { basePoint.value with doubleValue := some inDp.value } }

/-- The bucket's upper bound dimension value at index j: bounds[j] when in
range, else the infinity rendering (the last bucket has no explicit bound). -/
def bucketBound (bounds : List Float64) (j : Nat) : String :=
  match bounds[j]? with
  | some b => float64ToDimValue b
  | none => infinityBoundSFxDimValue

/-- The bucket-emission loop shared verbatim by convertIntHistogram and
convertDoubleHistogram (converter.go): one point per bucket count, named
`<metric>_bucket`, integer-valued, with an extra upper_bound dimension. -/
def bucketPoints (basePoint : DataPoint) (labels : StringMap)
    (extraDims : List Dimension) (bounds : List Float64) (ts : Int) :
    Nat → List Nat → List DataPoint
  | _, [] => []
  | j, c :: rest =>
    { basePoint with
        metric := basePoint.metric ++ "_bucket"
        timestamp := ts
        dimensions := labelsToDimensions labels extraDims ++
          [{ key := upperBoundDimensionKey, value := bucketBound bounds j }]
        value := { basePoint.value with intValue := some (int64ofUInt64 c) } }
      :: bucketPoints basePoint labels extraDims bounds ts (j + 1) rest

/-- The body of convertIntHistogram's loop (converter.go) for one non-nil
histogram point: a `_count` point, an unsuffixed sum point, then — when the
bucket counts are absent or structurally consistent — the bucket points. -/
def convertIntHistogramPoint (histDP : IntHistogramDataPoint)
    (basePoint : DataPoint) (extraDims : List Dimension) : List DataPoint :=
  let ts := timestampToSignalFx histDP.timestamp
  let countDP : DataPoint :=
    { basePoint with
        metric := basePoint.metric ++ "_count"
        timestamp := ts
        dimensions := labelsToDimensions histDP.labels extraDims
        value := { basePoint.value with intValue := some (int64ofUInt64 histDP.count) } }
  let sumDP : DataPoint :=
    { basePoint with
        timestamp := ts
        dimensions := labelsToDimensions histDP.labels extraDims
        value := { basePoint.value with intValue := some histDP.sum } }
  let bounds := histDP.explicitBounds
  let counts := histDP.bucketCounts
  if 0 < counts.length ∧ counts.length ≠ bounds.length + 1 then
    [countDP, sumDP]
  else
    [countDP, sumDP] ++ bucketPoints basePoint histDP.labels extraDims bounds ts 0 counts

/-- convertIntHistogram (converter.go): loop over the points, skipping nil
entries, appending each point's emission. -/
def convertIntHistogram (histDPs : List (Option IntHistogramDataPoint))
    (basePoint : DataPoint) (extraDims : List Dimension) : List DataPoint :=
  histDPs.foldl
    (fun out o =>
      match o with
      | none => out
      | some histDP => out ++ convertIntHistogramPoint histDP basePoint extraDims)
    []

/-- The body of convertDoubleHistogram's loop (converter.go): identical to
the int variant except that the sum point carries a double value. -/
def convertDoubleHistogramPoint (histDP : DoubleHistogramDataPoint)
    (basePoint : DataPoint) (extraDims : List Dimension) : List DataPoint :=
  let ts := timestampToSignalFx histDP.timestamp
  let countDP : DataPoint :=
    { basePoint with
        metric := basePoint.metric ++ "_count"
        timestamp := ts
        dimensions := labelsToDimensions histDP.labels extraDims
        value := { basePoint.value with intValue := some (int64ofUInt64 histDP.count) } }
  let sumDP : DataPoint :=
    { basePoint with
        timestamp := ts
        dimensions := labelsToDimensions histDP.labels extraDims
        value := { basePoint.value with doubleValue := some histDP.sum } }
  let bounds := histDP.explicitBounds
  let counts := histDP.bucketCounts
  if 0 < counts.length ∧ counts.length ≠ bounds.length + 1 then
    [countDP, sumDP]
  else
    [countDP, sumDP] ++ bucketPoints basePoint histDP.labels extraDims bounds ts 0 counts

/-- convertDoubleHistogram (converter.go). -/
def convertDoubleHistogram (histDPs : List (Option DoubleHistogramDataPoint))
    (basePoint : DataPoint) (extraDims : List Dimension) : List DataPoint :=
  histDPs.foldl
    (fun out o =>
      match o with
      | none => out
      | some histDP => out ++ convertDoubleHistogramPoint histDP basePoint extraDims)
    []

/-! ## The orchestrator -/

/-- MetricsConverter (converter.go): the optional MetricTranslator is an
external collaborator, modelled as a function on the flat point list (its
rule language is out of scope; the logger is dropped as pure diagnostics). -/
structure MetricsConverter where
  metricTranslator : Option (List DataPoint → List DataPoint)

/-- The `if c.metricTranslator != nil` wrapper at the end of
metricToSfxDataPoints (converter.go). -/
def applyTranslator (c : MetricsConverter) (dps : List DataPoint) : List DataPoint :=
  match c.metricTranslator with
  | some t => t dps
  | none => dps

/-- metricToSfxDataPoints (converter.go): dispatch on the metric's data
type (the None case returns early, before the translator), then apply the
optional translator to this metric's points. -/
def metricToSfxDataPoints (c : MetricsConverter) (metric : Metric)
    (extraDimensions : List Dimension) : List DataPoint :=
  let basePoint := makeBaseDataPoint metric
  match metric.data with
  | .none_ => []
  | .intGauge dps0 =>
    applyTranslator c (convertIntDatapoints dps0 basePoint extraDimensions)
  | .intSum _ _ dps0 =>
    applyTranslator c (convertIntDatapoints dps0 basePoint extraDimensions)
  | .doubleGauge dps0 =>
    applyTranslator c (convertDoubleDatapoints dps0 basePoint extraDimensions)
  | .doubleSum _ _ dps0 =>
    applyTranslator c (convertDoubleDatapoints dps0 basePoint extraDimensions)
  | .intHistogram _ dps0 =>
    applyTranslator c (convertIntHistogram dps0 basePoint extraDimensions)
  | .doubleHistogram _ dps0 =>
    applyTranslator c (convertDoubleHistogram dps0 basePoint extraDimensions)

/-- MetricDataToSignalFxV2 (converter.go): build the resource dimensions
once, walk the instrumentation library metrics skipping nil entries,
convert each metric (the per-metric translator included), and sanitize the
assembled batch at the end. -/
def MetricDataToSignalFxV2 (c : MetricsConverter) (rm : ResourceMetrics) : List DataPoint :=
  let extraDimensions := resourceAttributesToDimensions rm.resourceAttributes
  let sfxDatapoints :=
    rm.ilms.foldl
      (fun acc ilmOpt =>
        match ilmOpt with
        | none => acc
        | some ilm =>
          ilm.metrics.foldl
            (fun acc2 mOpt =>
              match mOpt with
              | none => acc2
              | some m => acc2 ++ metricToSfxDataPoints c m extraDimensions)
            acc)
      []
  sanitizeDataPointDimensions sfxDatapoints

/-! ## Spec-side definitions used to compare claims against the code -/

/-- The per-rune mapping inside filterKeyChars (the filterMap closure in
converter.go), named so that lemmas can speak about it. -/
def keyCharStep (r : Char) : Char :=
  if unicodeIsLetter r || unicodeIsDigit r || r == '_' || r == '-' then r
  else '_'

/-- Modelled from the spec's words, for claim comparison: a full match of
the character-class regular expression [A-Za-z0-9_-]+ (one or more
characters, each drawn from the class). -/
def keyClassChar (c : Char) : Bool :=
  ('A' ≤ c && c ≤ 'Z') || ('a' ≤ c && c ≤ 'z') ||
  ('0' ≤ c && c ≤ '9') || c == '_' || c == '-'

/-- Modelled from the spec's words: s matches [A-Za-z0-9_-]+ in full. -/
def matchesKeyCharClassPlus (s : String) : Bool :=
  0 < s.length && s.data.all keyClassChar

/-- An ASCII-only string: every code point below U+0080. -/
def isAsciiOnly (s : String) : Bool :=
  s.data.all (fun c => c.val < 128)

/-! ## Lemmas about the key sanitizer -/

lemma filterKeyChars_eq (s : String) : filterKeyChars s = ⟨s.data.map keyCharStep⟩ := rfl

lemma keyCharStep_eq_self (r : Char)
    (h : (unicodeIsLetter r || unicodeIsDigit r || r == '_' || r == '-') = true) :
    keyCharStep r = r := by
  unfold keyCharStep
  rw [if_pos h]

lemma keyCharStep_allowed (r : Char) :
    (unicodeIsLetter (keyCharStep r) || unicodeIsDigit (keyCharStep r) ||
      keyCharStep r == '_' || keyCharStep r == '-') = true := by
  unfold keyCharStep
  split
  case isTrue h => exact h
  case isFalse h => decide

lemma keyCharStep_idem (r : Char) : keyCharStep (keyCharStep r) = keyCharStep r :=
  keyCharStep_eq_self _ (keyCharStep_allowed r)

lemma keyClassChar_keyCharStep (r : Char) : keyClassChar (keyCharStep r) = true := by
  unfold keyCharStep
  split
  case isTrue h =>
    unfold keyClassChar
    unfold unicodeIsLetter unicodeIsDigit at h
    rw [Bool.or_assoc, Bool.or_assoc] at h ⊢
    rw [Bool.or_assoc] at h ⊢
    exact h
  case isFalse h => decide

lemma filterKeyChars_idempotent (s : String) :
    filterKeyChars (filterKeyChars s) = filterKeyChars s := by
  show String.mk ((s.data.map keyCharStep).map keyCharStep) = String.mk (s.data.map keyCharStep)
  rw [List.map_map]
  exact congrArg String.mk (List.map_congr_left fun a _ => keyCharStep_idem a)

lemma filterKeyChars_ne_accessToken (s : String) :
    filterKeyChars s ≠ SFxAccessTokenLabel := by
  intro hs
  have hd : s.data.map keyCharStep = SFxAccessTokenLabel.data :=
    congrArg String.data hs
  have hdot : '.' ∈ SFxAccessTokenLabel.data := by decide
  rw [← hd] at hdot
  obtain ⟨a, _, ha⟩ := List.mem_map.mp hdot
  have hall := keyCharStep_allowed a
  rw [ha] at hall
  exact absurd hall (by decide)

/-- C8 counterexample input: the empty string is ASCII-only, sanitizes to
itself, and the empty string does not match [A-Za-z0-9_-]+ (the regex
requires at least one character). -/
theorem filterKeyChars_empty_not_classPlus :
    isAsciiOnly "" = true ∧ matchesKeyCharClassPlus (filterKeyChars "") = false := by
  decide

/-- C8 (amended): the dimension-key sanitization maps every character that
is not a letter, digit, underscore or hyphen to underscore and leaves
allowed characters unchanged; it is idempotent; and for every nonempty
ASCII input the result matches [A-Za-z0-9_-]+ .  (The original claim
quantified over every ASCII input; the empty string is ASCII, sanitizes to
the empty string, and fails the one-or-more-characters regex.) -/
theorem filterKeyChars_spec (s : String) :
    (filterKeyChars s).data = s.data.map keyCharStep
    ∧ filterKeyChars (filterKeyChars s) = filterKeyChars s
    ∧ (s ≠ "" → isAsciiOnly s = true →
        matchesKeyCharClassPlus (filterKeyChars s) = true) := by
  refine ⟨rfl, filterKeyChars_idempotent s, fun hne _ => ?_⟩
  unfold matchesKeyCharClassPlus
  rw [Bool.and_eq_true]
  constructor
  · rw [decide_eq_true_eq]
    rw [filterKeyChars_eq]
    show 0 < (s.data.map keyCharStep).length
    rw [List.length_map]
    cases hd : s.data with
    | nil => exact absurd (congrArg String.mk hd) hne
    | cons a t => simp
  · rw [List.all_eq_true]
    intro c hc
    rw [filterKeyChars_eq] at hc
    obtain ⟨a, _, ha⟩ := List.mem_map.mp hc
    rw [← ha]
    exact keyClassChar_keyCharStep a

/-- C8 witness: a concrete nonempty ASCII key. -/
theorem filterKeyChars_spec_witness :
    matchesKeyCharClassPlus (filterKeyChars "a.b") = true :=
  (filterKeyChars_spec "a.b").2.2 (by decide) (by decide)

/-! ## Metric type classification (Sum metrics) -/

lemma mem_convertIntDatapoints_metricType {p : DataPoint}
    {dps : List (Option IntDataPoint)} {b : DataPoint} {e : List Dimension}
    (hp : p ∈ convertIntDatapoints dps b e) : p.metricType = b.metricType := by
  unfold convertIntDatapoints at hp
  obtain ⟨o, _, ho⟩ := List.mem_filterMap.mp hp
  cases o with
  | none => exact absurd ho (by simp)
  | some dp =>
    rw [Option.map_some'] at ho
    cases ho
    rfl

lemma mem_convertDoubleDatapoints_metricType {p : DataPoint}
    {dps : List (Option DoubleDataPoint)} {b : DataPoint} {e : List Dimension}
    (hp : p ∈ convertDoubleDatapoints dps b e) : p.metricType = b.metricType := by
  unfold convertDoubleDatapoints at hp
  obtain ⟨o, _, ho⟩ := List.mem_filterMap.mp hp
  cases o with
  | none => exact absurd ho (by simp)
  | some dp =>
    rw [Option.map_some'] at ho
    cases ho
    rfl

/-- C1: for Sum metrics the classification function and, with it, the
metric type stamped on every emitted point are: non-monotonic Sum → Gauge
(whatever the temporality), monotonic Delta Sum → Counter, monotonic
Cumulative Sum → CumulativeCounter; identically for the integer-valued and
floating-point-valued variants.  (Emission is taken at the shape-conversion
boundary, i.e. with no Rule Translator installed.) -/
theorem sum_metricType_classification
    (name : String) (temp : AggregationTemporality) (extra : List Dimension)
    (idps : List (Option IntDataPoint)) (ddps : List (Option DoubleDataPoint)) :
    (fromMetricDataTypeToMetricType ⟨name, .intSum false temp idps⟩ = some .gauge
      ∧ ∀ p ∈ metricToSfxDataPoints ⟨none⟩ ⟨name, .intSum false temp idps⟩ extra,
          p.metricType = some .gauge)
    ∧ (fromMetricDataTypeToMetricType ⟨name, .intSum true .delta idps⟩ = some .counter
      ∧ ∀ p ∈ metricToSfxDataPoints ⟨none⟩ ⟨name, .intSum true .delta idps⟩ extra,
          p.metricType = some .counter)
    ∧ (fromMetricDataTypeToMetricType ⟨name, .intSum true .cumulative idps⟩
          = some .cumulativeCounter
      ∧ ∀ p ∈ metricToSfxDataPoints ⟨none⟩ ⟨name, .intSum true .cumulative idps⟩ extra,
          p.metricType = some .cumulativeCounter)
    ∧ (fromMetricDataTypeToMetricType ⟨name, .doubleSum false temp ddps⟩ = some .gauge
      ∧ ∀ p ∈ metricToSfxDataPoints ⟨none⟩ ⟨name, .doubleSum false temp ddps⟩ extra,
          p.metricType = some .gauge)
    ∧ (fromMetricDataTypeToMetricType ⟨name, .doubleSum true .delta ddps⟩ = some .counter
      ∧ ∀ p ∈ metricToSfxDataPoints ⟨none⟩ ⟨name, .doubleSum true .delta ddps⟩ extra,
          p.metricType = some .counter)
    ∧ (fromMetricDataTypeToMetricType ⟨name, .doubleSum true .cumulative ddps⟩
          = some .cumulativeCounter
      ∧ ∀ p ∈ metricToSfxDataPoints ⟨none⟩ ⟨name, .doubleSum true .cumulative ddps⟩ extra,
          p.metricType = some .cumulativeCounter) := by
  refine ⟨⟨?_, ?_⟩, ⟨?_, ?_⟩, ⟨?_, ?_⟩, ⟨?_, ?_⟩, ⟨?_, ?_⟩, ⟨?_, ?_⟩⟩
  case _ => cases temp <;> rfl
  case _ =>
    intro p hp
    exact mem_convertIntDatapoints_metricType hp |>.trans (by cases temp <;> rfl)
  case _ => rfl
  case _ =>
    intro p hp
    exact mem_convertIntDatapoints_metricType hp |>.trans rfl
  case _ => rfl
  case _ =>
    intro p hp
    exact mem_convertIntDatapoints_metricType hp |>.trans rfl
  case _ => cases temp <;> rfl
  case _ =>
    intro p hp
    exact mem_convertDoubleDatapoints_metricType hp |>.trans (by cases temp <;> rfl)
  case _ => rfl
  case _ =>
    intro p hp
    exact mem_convertDoubleDatapoints_metricType hp |>.trans rfl
  case _ => rfl
  case _ =>
    intro p hp
    exact mem_convertDoubleDatapoints_metricType hp |>.trans rfl

/-- C1 witness: a concrete monotonic Delta int Sum point comes out as a
Counter. -/
theorem sum_metricType_classification_witness :
    ({ metric := "m", metricType := some .counter, timestamp := 0,
       dimensions := [], value := { intValue := some 7, doubleValue := none } }
        : DataPoint).metricType = some .counter :=
  ((sum_metricType_classification "m" .delta [] [some ⟨[], 0, 7⟩] []).2.1).2 _ (by decide)

/-! ## Dimension merge order for Gauge/Sum points -/

lemma labelsToDimensions_eq (labels : StringMap) (extra : List Dimension) :
    labelsToDimensions labels extra
      = extra ++ labels.map (fun kv => { key := kv.1, value := kv.2 }) := by
  unfold labelsToDimensions
  split
  case isTrue h =>
    rw [List.length_eq_zero] at h
    rw [h]
    simp
  case isFalse h => rfl

lemma convertIntDatapoints_eq_map (dps : List (Option IntDataPoint))
    (b : DataPoint) (e : List Dimension) :
    convertIntDatapoints dps b e = (dps.filterMap id).map (fun inDp =>
      { b with
          timestamp := timestampToSignalFx inDp.timestamp
          dimensions := labelsToDimensions inDp.labels e
          value := { b.value with intValue := some inDp.value } }) := by
  unfold convertIntDatapoints
  induction dps with
  | nil => rfl
  | cons o t ih => cases o <;> simp [List.filterMap_cons, ih]

lemma convertDoubleDatapoints_eq_map (dps : List (Option DoubleDataPoint))
    (b : DataPoint) (e : List Dimension) :
    convertDoubleDatapoints dps b e = (dps.filterMap id).map (fun inDp =>
      { b with
          timestamp := timestampToSignalFx inDp.timestamp
          dimensions := labelsToDimensions inDp.labels e
          value := { b.value with doubleValue := some inDp.value } }) := by
  unfold convertDoubleDatapoints
  induction dps with
  | nil => rfl
  | cons o t ih => cases o <;> simp [List.filterMap_cons, ih]

/-- C7: every point emitted for a Gauge or Sum data point carries the
resource-level dimension list first with the point's per-series labels
appended after it, and therefore contains every resource-level dimension
and every per-series label; for the integer and the floating-point
variants alike. -/
theorem gaugeSum_dimension_order (dps : List (Option IntDataPoint))
    (ddps : List (Option DoubleDataPoint)) (b : DataPoint) (e : List Dimension) :
    ((convertIntDatapoints dps b e).map (fun p => p.dimensions)
      = (dps.filterMap id).map (fun dp =>
          e ++ dp.labels.map (fun kv => { key := kv.1, value := kv.2 })))
    ∧ ((convertDoubleDatapoints ddps b e).map (fun p => p.dimensions)
      = (ddps.filterMap id).map (fun dp =>
          e ++ dp.labels.map (fun kv => { key := kv.1, value := kv.2 })))
    ∧ (∀ p ∈ convertIntDatapoints dps b e, ∀ d ∈ e, d ∈ p.dimensions)
    ∧ (∀ p ∈ convertDoubleDatapoints ddps b e, ∀ d ∈ e, d ∈ p.dimensions)
    ∧ (∀ dp : IntDataPoint, ∀ p ∈ convertIntDatapoints [some dp] b e,
        ∀ kv ∈ dp.labels, ({ key := kv.1, value := kv.2 } : Dimension) ∈ p.dimensions)
    ∧ (∀ dp : DoubleDataPoint, ∀ p ∈ convertDoubleDatapoints [some dp] b e,
        ∀ kv ∈ dp.labels, ({ key := kv.1, value := kv.2 } : Dimension) ∈ p.dimensions) := by
  refine ⟨?_, ?_, ?_, ?_, ?_, ?_⟩
  · rw [convertIntDatapoints_eq_map, List.map_map]
    exact List.map_congr_left fun dp _ => labelsToDimensions_eq dp.labels e
  · rw [convertDoubleDatapoints_eq_map, List.map_map]
    exact List.map_congr_left fun dp _ => labelsToDimensions_eq dp.labels e
  · intro p hp d hd
    rw [convertIntDatapoints_eq_map] at hp
    obtain ⟨dp, _, hq⟩ := List.mem_map.mp hp
    rw [← hq]
    show d ∈ labelsToDimensions dp.labels e
    rw [labelsToDimensions_eq]
    exact List.mem_append_left _ hd
  · intro p hp d hd
    rw [convertDoubleDatapoints_eq_map] at hp
    obtain ⟨dp, _, hq⟩ := List.mem_map.mp hp
    rw [← hq]
    show d ∈ labelsToDimensions dp.labels e
    rw [labelsToDimensions_eq]
    exact List.mem_append_left _ hd
  · intro dp p hp kv hkv
    rw [convertIntDatapoints_eq_map] at hp
    obtain ⟨dq, hdq, hq⟩ := List.mem_map.mp hp
    rw [List.filterMap_cons] at hdq
    simp only [id, List.filterMap_nil, List.mem_singleton] at hdq
    rw [← hq, hdq]
    show _ ∈ labelsToDimensions dp.labels e
    rw [labelsToDimensions_eq]
    exact List.mem_append_right _ (List.mem_map.mpr ⟨kv, hkv, rfl⟩)
  · intro dp p hp kv hkv
    rw [convertDoubleDatapoints_eq_map] at hp
    obtain ⟨dq, hdq, hq⟩ := List.mem_map.mp hp
    rw [List.filterMap_cons] at hdq
    simp only [id, List.filterMap_nil, List.mem_singleton] at hdq
    rw [← hq, hdq]
    show _ ∈ labelsToDimensions dp.labels e
    rw [labelsToDimensions_eq]
    exact List.mem_append_right _ (List.mem_map.mpr ⟨kv, hkv, rfl⟩)

/-- C7 witness: a concrete Gauge point; the resource dimension and the label
both appear in its dimension list. -/
theorem gaugeSum_dimension_order_witness :
    ({ key := "rk", value := "rv" } : Dimension) ∈
      ({ metric := "m", metricType := some .gauge, timestamp := 0,
         dimensions := [{ key := "rk", value := "rv" }, { key := "l", value := "v" }],
         value := { intValue := some 3, doubleValue := none } } : DataPoint).dimensions :=
  (gaugeSum_dimension_order [some ⟨[("l", "v")], 0, 3⟩] []
      (makeBaseDataPoint ⟨"m", .intGauge []⟩) [{ key := "rk", value := "rv" }]).2.2.1
    _ (by decide) _ (by decide)

/-! ## Histogram decomposition -/

lemma bucketPoints_length (b : DataPoint) (l : StringMap) (e : List Dimension)
    (bounds : List Float64) (ts : Int) :
    ∀ (cs : List Nat) (j : Nat), (bucketPoints b l e bounds ts j cs).length = cs.length := by
  intro cs
  induction cs with
  | nil => intro j; rfl
  | cons c rest ih =>
    intro j
    show (bucketPoints b l e bounds ts j (c :: rest)).length = rest.length + 1
    rw [bucketPoints, List.length_cons, ih]

lemma bucketPoints_map_metric (b : DataPoint) (l : StringMap) (e : List Dimension)
    (bounds : List Float64) (ts : Int) :
    ∀ (cs : List Nat) (j : Nat),
      (bucketPoints b l e bounds ts j cs).map (fun p => p.metric)
        = List.replicate cs.length (b.metric ++ "_bucket") := by
  intro cs
  induction cs with
  | nil => intro j; rfl
  | cons c rest ih =>
    intro j
    rw [bucketPoints, List.map_cons, ih, List.length_cons, List.replicate_succ]

lemma bucketPoints_map_value (b : DataPoint) (l : StringMap) (e : List Dimension)
    (bounds : List Float64) (ts : Int) :
    ∀ (cs : List Nat) (j : Nat),
      (bucketPoints b l e bounds ts j cs).map (fun p => p.value)
        = cs.map (fun c => { b.value with intValue := some (int64ofUInt64 c) }) := by
  intro cs
  induction cs with
  | nil => intro j; rfl
  | cons c rest ih =>
    intro j
    rw [bucketPoints, List.map_cons, ih, List.map_cons]

lemma bucketPoints_map_dimensions (b : DataPoint) (l : StringMap) (e : List Dimension)
    (bounds : List Float64) (ts : Int) :
    ∀ (cs : List Nat) (j : Nat),
      (bucketPoints b l e bounds ts j cs).map (fun p => p.dimensions)
        = (List.range' j cs.length).map (fun jj =>
            labelsToDimensions l e ++
              [{ key := upperBoundDimensionKey, value := bucketBound bounds jj }]) := by
  intro cs
  induction cs with
  | nil => intro j; rfl
  | cons c rest ih =>
    intro j
    rw [bucketPoints, List.map_cons, ih, List.length_cons, List.range'_succ, List.map_cons]

lemma convertIntHistogram_singleton (dp : IntHistogramDataPoint)
    (b : DataPoint) (e : List Dimension) :
    convertIntHistogram [some dp] b e = convertIntHistogramPoint dp b e := by
  unfold convertIntHistogram
  rfl

lemma convertDoubleHistogram_singleton (dp : DoubleHistogramDataPoint)
    (b : DataPoint) (e : List Dimension) :
    convertDoubleHistogram [some dp] b e = convertDoubleHistogramPoint dp b e := by
  unfold convertDoubleHistogram
  rfl

lemma convertIntHistogramPoint_valid (dp : IntHistogramDataPoint)
    (b : DataPoint) (e : List Dimension)
    (h : dp.bucketCounts.length = dp.explicitBounds.length + 1) :
    convertIntHistogramPoint dp b e =
      [{ b with
          metric := b.metric ++ "_count"
          timestamp := timestampToSignalFx dp.timestamp
          dimensions := labelsToDimensions dp.labels e
          value := { b.value with intValue := some (int64ofUInt64 dp.count) } },
       { b with
          timestamp := timestampToSignalFx dp.timestamp
          dimensions := labelsToDimensions dp.labels e
          value := { b.value with intValue := some dp.sum } }]
      ++ bucketPoints b dp.labels e dp.explicitBounds
          (timestampToSignalFx dp.timestamp) 0 dp.bucketCounts := by
  unfold convertIntHistogramPoint
  rw [if_neg]
  intro hcontra
  exact hcontra.2 h

lemma convertDoubleHistogramPoint_valid (dp : DoubleHistogramDataPoint)
    (b : DataPoint) (e : List Dimension)
    (h : dp.bucketCounts.length = dp.explicitBounds.length + 1) :
    convertDoubleHistogramPoint dp b e =
      [{ b with
          metric := b.metric ++ "_count"
          timestamp := timestampToSignalFx dp.timestamp
          dimensions := labelsToDimensions dp.labels e
          value := { b.value with intValue := some (int64ofUInt64 dp.count) } },
       { b with
          timestamp := timestampToSignalFx dp.timestamp
          dimensions := labelsToDimensions dp.labels e
          value := { b.value with doubleValue := some dp.sum } }]
      ++ bucketPoints b dp.labels e dp.explicitBounds
          (timestampToSignalFx dp.timestamp) 0 dp.bucketCounts := by
  unfold convertDoubleHistogramPoint
  rw [if_neg]
  intro hcontra
  exact hcontra.2 h

lemma bucketPoints_map_lastDim (b : DataPoint) (l : StringMap) (e : List Dimension)
    (bounds : List Float64) (ts : Int) :
    ∀ (cs : List Nat) (j : Nat),
      (bucketPoints b l e bounds ts j cs).map (fun p => p.dimensions.getLast?)
        = (List.range' j cs.length).map (fun jj =>
            some { key := upperBoundDimensionKey, value := bucketBound bounds jj }) := by
  intro cs
  induction cs with
  | nil => intro j; rfl
  | cons c rest ih =>
    intro j
    rw [bucketPoints, List.map_cons, ih, List.length_cons, List.range'_succ, List.map_cons]
    rw [List.getLast?_concat]

lemma bucketPoints_getElem_lastDim (b : DataPoint) (l : StringMap) (e : List Dimension)
    (bounds : List Float64) (ts : Int) :
    ∀ (cs : List Nat) (j k : Nat), k < cs.length →
      ((bucketPoints b l e bounds ts j cs)[k]?).map (fun p => p.dimensions.getLast?)
        = some (some { key := upperBoundDimensionKey, value := bucketBound bounds (j + k) }) := by
  intro cs
  induction cs with
  | nil => intro j k hk; exact absurd hk (by simp)
  | cons c rest ih =>
    intro j k hk
    cases k with
    | zero =>
      rw [bucketPoints, List.getElem?_cons_zero, Option.map_some']
      rw [List.getLast?_concat, Nat.add_zero]
    | succ k2 =>
      rw [bucketPoints, List.getElem?_cons_succ]
      have hij : j + (k2 + 1) = (j + 1) + k2 := by omega
      rw [hij]
      exact ih (j + 1) k2 (by exact Nat.lt_of_succ_lt_succ hk)

lemma bucketBound_last (bounds : List Float64) :
    bucketBound bounds bounds.length = infinityBoundSFxDimValue := by
  unfold bucketBound
  rw [List.getElem?_eq_none (le_refl _)]

/-- C2: for a structurally valid Histogram data point (bucket-count length
N = bounds length + 1) the converter emits, in order, 2 + N points: a
`_count` point carrying the point count as an integer, the unsuffixed sum
point, then N `_bucket` points whose values are integer-typed even for the
floating-point histogram variant, each carrying an upper_bound dimension
(appended last), the final bucket's upper_bound rendering positive
infinity. -/
theorem histogram_valid_decomposition :
    (∀ (m : Metric) (dp : IntHistogramDataPoint) (extra : List Dimension),
      dp.bucketCounts.length = dp.explicitBounds.length + 1 →
      (convertIntHistogram [some dp] (makeBaseDataPoint m) extra).length
          = 2 + dp.bucketCounts.length
      ∧ (convertIntHistogram [some dp] (makeBaseDataPoint m) extra).map (fun p => p.metric)
          = (m.name ++ "_count") :: m.name ::
              List.replicate dp.bucketCounts.length (m.name ++ "_bucket")
      ∧ ((convertIntHistogram [some dp] (makeBaseDataPoint m) extra).head?).map
            (fun p => p.value)
          = some { intValue := some (int64ofUInt64 dp.count), doubleValue := none }
      ∧ ((convertIntHistogram [some dp] (makeBaseDataPoint m) extra).drop 2).map
            (fun p => p.value)
          = dp.bucketCounts.map
              (fun c => { intValue := some (int64ofUInt64 c), doubleValue := none })
      ∧ ((convertIntHistogram [some dp] (makeBaseDataPoint m) extra).drop 2).map
            (fun p => p.dimensions.getLast?)
          = (List.range dp.bucketCounts.length).map (fun j =>
              some { key := upperBoundDimensionKey, value := bucketBound dp.explicitBounds j })
      ∧ ((convertIntHistogram [some dp] (makeBaseDataPoint m) extra)[dp.bucketCounts.length + 1]?).map
            (fun p => p.dimensions.getLast?)
          = some (some { key := upperBoundDimensionKey, value := infinityBoundSFxDimValue }))
    ∧ (∀ (m : Metric) (dp : DoubleHistogramDataPoint) (extra : List Dimension),
      dp.bucketCounts.length = dp.explicitBounds.length + 1 →
      (convertDoubleHistogram [some dp] (makeBaseDataPoint m) extra).length
          = 2 + dp.bucketCounts.length
      ∧ (convertDoubleHistogram [some dp] (makeBaseDataPoint m) extra).map (fun p => p.metric)
          = (m.name ++ "_count") :: m.name ::
              List.replicate dp.bucketCounts.length (m.name ++ "_bucket")
      ∧ ((convertDoubleHistogram [some dp] (makeBaseDataPoint m) extra).head?).map
            (fun p => p.value)
          = some { intValue := some (int64ofUInt64 dp.count), doubleValue := none }
      ∧ ((convertDoubleHistogram [some dp] (makeBaseDataPoint m) extra).drop 2).map
            (fun p => p.value)
          = dp.bucketCounts.map
              (fun c => { intValue := some (int64ofUInt64 c), doubleValue := none })
      ∧ ((convertDoubleHistogram [some dp] (makeBaseDataPoint m) extra).drop 2).map
            (fun p => p.dimensions.getLast?)
          = (List.range dp.bucketCounts.length).map (fun j =>
              some { key := upperBoundDimensionKey, value := bucketBound dp.explicitBounds j })
      ∧ ((convertDoubleHistogram [some dp] (makeBaseDataPoint m) extra)[dp.bucketCounts.length + 1]?).map
            (fun p => p.dimensions.getLast?)
          = some (some { key := upperBoundDimensionKey, value := infinityBoundSFxDimValue })) := by
  constructor
  · intro m dp extra h
    have hrw := (convertIntHistogram_singleton dp (makeBaseDataPoint m) extra).trans
      (convertIntHistogramPoint_valid dp (makeBaseDataPoint m) extra h)
    refine ⟨?_, ?_, ?_, ?_, ?_, ?_⟩
    · rw [hrw]
      simp [bucketPoints_length]
      omega
    · rw [hrw]
      simp [bucketPoints_map_metric, makeBaseDataPoint]
    · rw [hrw]
      simp [makeBaseDataPoint]
    · rw [hrw]
      simp [bucketPoints_map_value, makeBaseDataPoint]
    · rw [hrw, List.range_eq_range']
      simp [bucketPoints_map_lastDim]
    · rw [hrw]
      simp only [List.cons_append, List.nil_append]
      have hn : dp.bucketCounts.length + 1 = dp.explicitBounds.length + 1 + 1 := by omega
      rw [hn, List.getElem?_cons_succ, List.getElem?_cons_succ]
      have hlast := bucketPoints_getElem_lastDim (makeBaseDataPoint m) dp.labels extra
        dp.explicitBounds (timestampToSignalFx dp.timestamp) dp.bucketCounts 0
        dp.explicitBounds.length (by omega)
      rw [Nat.zero_add] at hlast
      rw [hlast, bucketBound_last]
  · intro m dp extra h
    have hrw := (convertDoubleHistogram_singleton dp (makeBaseDataPoint m) extra).trans
      (convertDoubleHistogramPoint_valid dp (makeBaseDataPoint m) extra h)
    refine ⟨?_, ?_, ?_, ?_, ?_, ?_⟩
    · rw [hrw]
      simp [bucketPoints_length]
      omega
    · rw [hrw]
      simp [bucketPoints_map_metric, makeBaseDataPoint]
    · rw [hrw]
      simp [makeBaseDataPoint]
    · rw [hrw]
      simp [bucketPoints_map_value, makeBaseDataPoint]
    · rw [hrw, List.range_eq_range']
      simp [bucketPoints_map_lastDim]
    · rw [hrw]
      simp only [List.cons_append, List.nil_append]
      have hn : dp.bucketCounts.length + 1 = dp.explicitBounds.length + 1 + 1 := by omega
      rw [hn, List.getElem?_cons_succ, List.getElem?_cons_succ]
      have hlast := bucketPoints_getElem_lastDim (makeBaseDataPoint m) dp.labels extra
        dp.explicitBounds (timestampToSignalFx dp.timestamp) dp.bucketCounts 0
        dp.explicitBounds.length (by omega)
      rw [Nat.zero_add] at hlast
      rw [hlast, bucketBound_last]

/-- C2 witness: a concrete int histogram (bounds [1], counts [1,2]) and a
concrete double histogram emit 2 + 2 points each. -/
theorem histogram_valid_decomposition_witness :
    (convertIntHistogram [some ⟨[], 0, 5, 10, [.finite "1"], [1, 2]⟩]
        (makeBaseDataPoint ⟨"h", .intHistogram .delta []⟩) []).length = 2 + 2
    ∧ (convertDoubleHistogram [some ⟨[], 0, 5, .finite "10", [.finite "1"], [1, 2]⟩]
        (makeBaseDataPoint ⟨"h", .doubleHistogram .delta []⟩) []).length = 2 + 2 :=
  ⟨(histogram_valid_decomposition.1 ⟨"h", .intHistogram .delta []⟩
      ⟨[], 0, 5, 10, [.finite "1"], [1, 2]⟩ [] (by decide)).1,
   (histogram_valid_decomposition.2 ⟨"h", .doubleHistogram .delta []⟩
      ⟨[], 0, 5, .finite "10", [.finite "1"], [1, 2]⟩ [] (by decide)).1⟩

/-! ## Structurally invalid histograms and continuation -/

lemma convertIntHistogramPoint_invalid (dp : IntHistogramDataPoint)
    (b : DataPoint) (e : List Dimension)
    (h0 : 0 < dp.bucketCounts.length)
    (h : dp.bucketCounts.length ≠ dp.explicitBounds.length + 1) :
    convertIntHistogramPoint dp b e =
      [{ b with
          metric := b.metric ++ "_count"
          timestamp := timestampToSignalFx dp.timestamp
          dimensions := labelsToDimensions dp.labels e
          value := { b.value with intValue := some (int64ofUInt64 dp.count) } },
       { b with
          timestamp := timestampToSignalFx dp.timestamp
          dimensions := labelsToDimensions dp.labels e
          value := { b.value with intValue := some dp.sum } }] := by
  unfold convertIntHistogramPoint
  rw [if_pos ⟨h0, h⟩]

lemma convertDoubleHistogramPoint_invalid (dp : DoubleHistogramDataPoint)
    (b : DataPoint) (e : List Dimension)
    (h0 : 0 < dp.bucketCounts.length)
    (h : dp.bucketCounts.length ≠ dp.explicitBounds.length + 1) :
    convertDoubleHistogramPoint dp b e =
      [{ b with
          metric := b.metric ++ "_count"
          timestamp := timestampToSignalFx dp.timestamp
          dimensions := labelsToDimensions dp.labels e
          value := { b.value with intValue := some (int64ofUInt64 dp.count) } },
       { b with
          timestamp := timestampToSignalFx dp.timestamp
          dimensions := labelsToDimensions dp.labels e
          value := { b.value with doubleValue := some dp.sum } }] := by
  unfold convertDoubleHistogramPoint
  rw [if_pos ⟨h0, h⟩]

lemma convertIntHistogram_eq_flatMap (dps : List (Option IntHistogramDataPoint))
    (b : DataPoint) (e : List Dimension) :
    convertIntHistogram dps b e = dps.flatMap (fun o =>
      match o with
      | none => []
      | some dp => convertIntHistogramPoint dp b e) := by
  unfold convertIntHistogram
  have hfold : ∀ (l : List (Option IntHistogramDataPoint)) (acc : List DataPoint),
      l.foldl
        (fun out o =>
          match o with
          | none => out
          | some histDP => out ++ convertIntHistogramPoint histDP b e) acc
        = acc ++ l.flatMap (fun o =>
            match o with
            | none => []
            | some dp => convertIntHistogramPoint dp b e) := by
    intro l
    induction l with
    | nil => intro acc; simp
    | cons o t ih =>
      intro acc
      cases o with
      | none => rw [List.foldl_cons, ih, List.flatMap_cons, List.nil_append]
      | some dp =>
        rw [List.foldl_cons, ih, List.flatMap_cons, List.append_assoc]
  rw [hfold, List.nil_append]

lemma convertDoubleHistogram_eq_flatMap (dps : List (Option DoubleHistogramDataPoint))
    (b : DataPoint) (e : List Dimension) :
    convertDoubleHistogram dps b e = dps.flatMap (fun o =>
      match o with
      | none => []
      | some dp => convertDoubleHistogramPoint dp b e) := by
  unfold convertDoubleHistogram
  have hfold : ∀ (l : List (Option DoubleHistogramDataPoint)) (acc : List DataPoint),
      l.foldl
        (fun out o =>
          match o with
          | none => out
          | some histDP => out ++ convertDoubleHistogramPoint histDP b e) acc
        = acc ++ l.flatMap (fun o =>
            match o with
            | none => []
            | some dp => convertDoubleHistogramPoint dp b e) := by
    intro l
    induction l with
    | nil => intro acc; simp
    | cons o t ih =>
      intro acc
      cases o with
      | none => rw [List.foldl_cons, ih, List.flatMap_cons, List.nil_append]
      | some dp =>
        rw [List.foldl_cons, ih, List.flatMap_cons, List.append_assoc]
  rw [hfold, List.nil_append]

lemma convertIntHistogram_append (l1 l2 : List (Option IntHistogramDataPoint))
    (b : DataPoint) (e : List Dimension) :
    convertIntHistogram (l1 ++ l2) b e
      = convertIntHistogram l1 b e ++ convertIntHistogram l2 b e := by
  rw [convertIntHistogram_eq_flatMap, convertIntHistogram_eq_flatMap,
    convertIntHistogram_eq_flatMap, List.flatMap_append]

lemma convertDoubleHistogram_append (l1 l2 : List (Option DoubleHistogramDataPoint))
    (b : DataPoint) (e : List Dimension) :
    convertDoubleHistogram (l1 ++ l2) b e
      = convertDoubleHistogram l1 b e ++ convertDoubleHistogram l2 b e := by
  rw [convertDoubleHistogram_eq_flatMap, convertDoubleHistogram_eq_flatMap,
    convertDoubleHistogram_eq_flatMap, List.flatMap_append]

/-- C4: a Histogram data point with a non-empty bucket-count sequence whose
length is not bounds-length + 1 yields exactly two points — the `_count`
point and the unsuffixed sum point — and no bucket points; conversion is
total (no error value exists in the return type) and the surrounding data
points of the slice convert exactly as they would alone. -/
theorem histogram_invalid_buckets_skipped :
    (∀ (m : Metric) (dp : IntHistogramDataPoint) (extra : List Dimension)
      (pre post : List (Option IntHistogramDataPoint)),
      0 < dp.bucketCounts.length →
      dp.bucketCounts.length ≠ dp.explicitBounds.length + 1 →
      (convertIntHistogram [some dp] (makeBaseDataPoint m) extra).length = 2
      ∧ (convertIntHistogram [some dp] (makeBaseDataPoint m) extra).map (fun p => p.metric)
          = [m.name ++ "_count", m.name]
      ∧ convertIntHistogram (pre ++ some dp :: post) (makeBaseDataPoint m) extra
          = convertIntHistogram pre (makeBaseDataPoint m) extra
            ++ convertIntHistogram [some dp] (makeBaseDataPoint m) extra
            ++ convertIntHistogram post (makeBaseDataPoint m) extra)
    ∧ (∀ (m : Metric) (dp : DoubleHistogramDataPoint) (extra : List Dimension)
      (pre post : List (Option DoubleHistogramDataPoint)),
      0 < dp.bucketCounts.length →
      dp.bucketCounts.length ≠ dp.explicitBounds.length + 1 →
      (convertDoubleHistogram [some dp] (makeBaseDataPoint m) extra).length = 2
      ∧ (convertDoubleHistogram [some dp] (makeBaseDataPoint m) extra).map (fun p => p.metric)
          = [m.name ++ "_count", m.name]
      ∧ convertDoubleHistogram (pre ++ some dp :: post) (makeBaseDataPoint m) extra
          = convertDoubleHistogram pre (makeBaseDataPoint m) extra
            ++ convertDoubleHistogram [some dp] (makeBaseDataPoint m) extra
            ++ convertDoubleHistogram post (makeBaseDataPoint m) extra) := by
  constructor
  · intro m dp extra pre post h0 h
    have hrw := (convertIntHistogram_singleton dp (makeBaseDataPoint m) extra).trans
      (convertIntHistogramPoint_invalid dp (makeBaseDataPoint m) extra h0 h)
    refine ⟨?_, ?_, ?_⟩
    · rw [hrw]; rfl
    · rw [hrw]
      simp [makeBaseDataPoint]
    · have hmid : (some dp :: post) = [some dp] ++ post := rfl
      rw [hmid, convertIntHistogram_append, convertIntHistogram_append,
        List.append_assoc]
  · intro m dp extra pre post h0 h
    have hrw := (convertDoubleHistogram_singleton dp (makeBaseDataPoint m) extra).trans
      (convertDoubleHistogramPoint_invalid dp (makeBaseDataPoint m) extra h0 h)
    refine ⟨?_, ?_, ?_⟩
    · rw [hrw]; rfl
    · rw [hrw]
      simp [makeBaseDataPoint]
    · have hmid : (some dp :: post) = [some dp] ++ post := rfl
      rw [hmid, convertDoubleHistogram_append, convertDoubleHistogram_append,
        List.append_assoc]

/-- C4 witness: a concrete int histogram and double histogram with 3 bucket
counts against 1 bound each emit exactly the two count/sum points. -/
theorem histogram_invalid_buckets_skipped_witness :
    (convertIntHistogram [some ⟨[], 0, 5, 10, [.finite "1"], [1, 2, 3]⟩]
        (makeBaseDataPoint ⟨"h", .intHistogram .delta []⟩) []).length = 2
    ∧ (convertDoubleHistogram [some ⟨[], 0, 5, .finite "10", [.finite "1"], [1, 2, 3]⟩]
        (makeBaseDataPoint ⟨"h", .doubleHistogram .delta []⟩) []).length = 2 :=
  ⟨(histogram_invalid_buckets_skipped.1 ⟨"h", .intHistogram .delta []⟩
      ⟨[], 0, 5, 10, [.finite "1"], [1, 2, 3]⟩ [] [] [] (by decide) (by decide)).1,
   (histogram_invalid_buckets_skipped.2 ⟨"h", .doubleHistogram .delta []⟩
      ⟨[], 0, 5, .finite "10", [.finite "1"], [1, 2, 3]⟩ [] [] [] (by decide) (by decide)).1⟩

/-! ## Pipeline ordering: sanitizer versus Rule Translator -/

/-- Modelled from the spec's words (§2 control flow), for comparison with
the code: assemble every metric's points with no per-metric translation,
normalize all dimension keys across the full output batch, then hand the
batch to the optional Rule Translator. -/
def specOrderedPipeline (c : MetricsConverter) (rm : ResourceMetrics) : List DataPoint :=
  let extraDimensions := resourceAttributesToDimensions rm.resourceAttributes
  let assembled :=
    rm.ilms.flatMap (fun o =>
      match o with
      | none => []
      | some ilm => ilm.metrics.flatMap (fun o2 =>
          match o2 with
          | none => []
          | some m => metricToSfxDataPoints ⟨none⟩ m extraDimensions))
  applyTranslator c (sanitizeDataPointDimensions assembled)

/-- A Rule Translator that tags every point with an extra dimension whose
key needs sanitizing: it distinguishes running before the Key Sanitizer
(key comes out as x_y) from running after it (key stays x.y). -/
def cexTranslator : List DataPoint → List DataPoint :=
  fun dps => dps.map (fun p =>
    { p with dimensions := p.dimensions ++ [{ key := "x.y", value := "v" }] })

/-- A converter holding cexTranslator. -/
def cexConverter : MetricsConverter := ⟨some cexTranslator⟩

/-- A one-metric batch: a single int Gauge point, no labels, no resource
attributes. -/
def cexBatch : ResourceMetrics :=
  { resourceAttributes := []
    ilms := [some ⟨[some ⟨"g", .intGauge [some ⟨[], 0, 1⟩]⟩]⟩] }

/-- C3 counterexample: with a Rule Translator that appends a dimension
keyed "x.y", the conversion result differs from the spec's
assemble-sanitize-translate order — the code sanitizes the key the
translator added (to "x_y"), which the spec's order would leave as "x.y".
The Rule Translator therefore does not receive the batch after
sanitization. -/
theorem pipeline_spec_order_refuted :
    MetricDataToSignalFxV2 cexConverter cexBatch
      ≠ specOrderedPipeline cexConverter cexBatch := by
  decide

/-- C3 (amended): the Key Sanitizer does run exactly once, over the
complete assembled flat point list, but the optional Rule Translator is
applied per metric, before sanitization: the conversion result equals —
for each (non-nil) metric, convert and immediately apply the Rule
Translator; concatenate in batch order; then sanitize every dimension key
of the whole batch once. -/
theorem pipeline_order (c : MetricsConverter) (rm : ResourceMetrics) :
    MetricDataToSignalFxV2 c rm
      = sanitizeDataPointDimensions
          (rm.ilms.flatMap (fun o =>
            match o with
            | none => []
            | some ilm => ilm.metrics.flatMap (fun o2 =>
                match o2 with
                | none => []
                | some m => metricToSfxDataPoints c m
                    (resourceAttributesToDimensions rm.resourceAttributes)))) := by
  have hinner : ∀ (ms : List (Option Metric)) (acc : List DataPoint),
      ms.foldl
        (fun acc2 mOpt =>
          match mOpt with
          | none => acc2
          | some m => acc2 ++ metricToSfxDataPoints c m
              (resourceAttributesToDimensions rm.resourceAttributes)) acc
        = acc ++ ms.flatMap (fun o2 =>
            match o2 with
            | none => []
            | some m => metricToSfxDataPoints c m
                (resourceAttributesToDimensions rm.resourceAttributes)) := by
    intro ms
    induction ms with
    | nil => intro acc; simp
    | cons o t ih =>
      intro acc
      cases o with
      | none => rw [List.foldl_cons, ih, List.flatMap_cons, List.nil_append]
      | some m => rw [List.foldl_cons, ih, List.flatMap_cons, List.append_assoc]
  have houter : ∀ (ilms : List (Option InstrumentationLibraryMetrics)) (acc : List DataPoint),
      ilms.foldl
        (fun acc ilmOpt =>
          match ilmOpt with
          | none => acc
          | some ilm =>
            ilm.metrics.foldl
              (fun acc2 mOpt =>
                match mOpt with
                | none => acc2
                | some m => acc2 ++ metricToSfxDataPoints c m
                    (resourceAttributesToDimensions rm.resourceAttributes))
              acc) acc
        = acc ++ ilms.flatMap (fun o =>
            match o with
            | none => []
            | some ilm => ilm.metrics.flatMap (fun o2 =>
                match o2 with
                | none => []
                | some m => metricToSfxDataPoints c m
                    (resourceAttributesToDimensions rm.resourceAttributes))) := by
    intro ilms
    induction ilms with
    | nil => intro acc; simp
    | cons o t ih =>
      intro acc
      cases o with
      | none => simp only [List.foldl_cons, List.flatMap_cons, List.nil_append, ih]
      | some ilm =>
        simp only [List.foldl_cons, List.flatMap_cons]
        rw [hinner, ih, List.append_assoc]
  unfold MetricDataToSignalFxV2
  simp only [houter, List.nil_append]

/-! ## Resource dimension assembly -/

lemma mem_plainDims_key {attrs : AttributeMap} {fil : String → Bool} {d : Dimension}
    (hd : d ∈ attrs.filterMap (fun kv =>
      if kv.1 = SFxAccessTokenLabel then none
      else if !(fil kv.1) then none
      else some { key := kv.1, value := attributeValueToString kv.2 })) :
    d.key ≠ SFxAccessTokenLabel ∧ fil d.key = true := by
  obtain ⟨kv, _, hf⟩ := List.mem_filterMap.mp hd
  split at hf
  case isTrue h1 => exact absurd hf (by simp)
  case isFalse h1 =>
    split at hf
    case isTrue h2 => exact absurd hf (by simp)
    case isFalse h2 =>
      rw [Option.some.injEq] at hf
      rw [← hf]
      have h2b : fil kv.1 = true := by
        cases hfb : fil kv.1 with
        | true => rfl
        | false => exact absurd (by rw [hfb]; decide) h2
      exact ⟨h1, h2b⟩

lemma plainDims_mem {attrs : AttributeMap} {fil : String → Bool} {k : String}
    {v : AttributeValue} (hkv : (k, v) ∈ attrs) (htok : k ≠ SFxAccessTokenLabel)
    (hfil : fil k = true) :
    ({ key := k, value := attributeValueToString v } : Dimension) ∈
      attrs.filterMap (fun kv =>
        if kv.1 = SFxAccessTokenLabel then none
        else if !(fil kv.1) then none
        else some { key := kv.1, value := attributeValueToString kv.2 }) :=
  List.mem_filterMap.mpr ⟨(k, v), hkv, by simp [htok, hfil]⟩

/-- C5: with provider "aws" and non-empty account, region and host id, the
resource dimension list starts with the single synthesized AWSUniqueId
dimension (value hostID_region_accountID) and no dimension in the list —
synthesized or plain — carries any of the four source attribute keys. -/
theorem aws_unique_id (attrs : AttributeMap)
    (hprov : getStringAttr attrs AttributeCloudProvider = "aws")
    (hinst : getStringAttr attrs AttributeHostID ≠ "")
    (hreg : getStringAttr attrs AttributeCloudRegion ≠ "")
    (hacc : getStringAttr attrs AttributeCloudAccount ≠ "") :
    (resourceAttributesToDimensions attrs).head? = some
      { key := "AWSUniqueId"
        value := getStringAttr attrs AttributeHostID ++ "_" ++
          getStringAttr attrs AttributeCloudRegion ++ "_" ++
          getStringAttr attrs AttributeCloudAccount }
    ∧ ((resourceAttributesToDimensions attrs).all (fun d =>
        d.key != AttributeCloudAccount && d.key != AttributeCloudRegion &&
        d.key != AttributeHostID && d.key != AttributeCloudProvider)) = true := by
  have hcondAws : getStringAttr attrs AttributeCloudProvider = AttributeCloudProviderAWS := by
    rw [hprov]
    rfl
  have hcondNE : ¬(getStringAttr attrs AttributeHostID = "" ∨
      getStringAttr attrs AttributeCloudRegion = "" ∨
      getStringAttr attrs AttributeCloudAccount = "") := by
    intro hor
    rcases hor with h | h | h
    exacts [hinst h, hreg h, hacc h]
  have hshape : resourceAttributesToDimensions attrs
      = { key := "AWSUniqueId"
          value := getStringAttr attrs AttributeHostID ++ "_" ++
            getStringAttr attrs AttributeCloudRegion ++ "_" ++
            getStringAttr attrs AttributeCloudAccount } ::
        attrs.filterMap (fun kv =>
          if kv.1 = SFxAccessTokenLabel then none
          else if !((fun k =>
              k != AttributeCloudAccount && k != AttributeCloudRegion &&
              k != AttributeHostID && k != AttributeCloudProvider) kv.1) then none
          else some { key := kv.1, value := attributeValueToString kv.2 }) := by
    simp only [resourceAttributesToDimensions]
    rw [if_pos hcondAws, if_neg hcondNE]
    rfl
  constructor
  · rw [hshape]
    rfl
  · rw [hshape, List.all_cons, Bool.and_eq_true]
    constructor
    · show ("AWSUniqueId" != AttributeCloudAccount && "AWSUniqueId" != AttributeCloudRegion &&
        "AWSUniqueId" != AttributeHostID && "AWSUniqueId" != AttributeCloudProvider) = true
      decide
    · rw [List.all_eq_true]
      intro d hd
      exact (@mem_plainDims_key attrs (fun k =>
        k != AttributeCloudAccount && k != AttributeCloudRegion &&
        k != AttributeHostID && k != AttributeCloudProvider) d hd).2

/-- C5 witness: the spec's §8 example resource. -/
theorem aws_unique_id_witness :
    (resourceAttributesToDimensions
      [(AttributeCloudProvider, .str "aws"), (AttributeHostID, .str "i-1"),
       (AttributeCloudRegion, .str "us-east-1"),
       (AttributeCloudAccount, .str "111")]).head?
      = some { key := "AWSUniqueId", value := "i-1_us-east-1_111" } :=
  (aws_unique_id
    [(AttributeCloudProvider, .str "aws"), (AttributeHostID, .str "i-1"),
     (AttributeCloudRegion, .str "us-east-1"), (AttributeCloudAccount, .str "111")]
    (by decide) (by decide) (by decide) (by decide)).1

/-- C6: with provider "gcp" and non-empty account and host id, the resource
dimension list starts with the single synthesized gcp_id dimension (value
accountID_hostID), no dimension carries the account, host-id, or provider
key, and a region attribute, when present, is still emitted as a plain
dimension. -/
theorem gcp_id_dimension (attrs : AttributeMap)
    (hprov : getStringAttr attrs AttributeCloudProvider = "gcp")
    (hacc : getStringAttr attrs AttributeCloudAccount ≠ "")
    (hinst : getStringAttr attrs AttributeHostID ≠ "") :
    (resourceAttributesToDimensions attrs).head? = some
      { key := "gcp_id"
        value := getStringAttr attrs AttributeCloudAccount ++ "_" ++
          getStringAttr attrs AttributeHostID }
    ∧ ((resourceAttributesToDimensions attrs).all (fun d =>
        d.key != AttributeCloudAccount && d.key != AttributeHostID &&
        d.key != AttributeCloudProvider)) = true
    ∧ (∀ v : AttributeValue, (AttributeCloudRegion, v) ∈ attrs →
        ({ key := AttributeCloudRegion, value := attributeValueToString v } : Dimension)
          ∈ resourceAttributesToDimensions attrs) := by
  have hcondAws : ¬(getStringAttr attrs AttributeCloudProvider = AttributeCloudProviderAWS) := by
    rw [hprov]
    decide
  have hcondGcp : getStringAttr attrs AttributeCloudProvider = AttributeCloudProviderGCP := by
    rw [hprov]
    rfl
  have hcondNE : ¬(getStringAttr attrs AttributeCloudAccount = "" ∨
      getStringAttr attrs AttributeHostID = "") := by
    intro hor
    rcases hor with h | h
    exacts [hacc h, hinst h]
  have hshape : resourceAttributesToDimensions attrs
      = { key := "gcp_id"
          value := getStringAttr attrs AttributeCloudAccount ++ "_" ++
            getStringAttr attrs AttributeHostID } ::
        attrs.filterMap (fun kv =>
          if kv.1 = SFxAccessTokenLabel then none
          else if !((fun k =>
              k != AttributeCloudAccount && k != AttributeHostID &&
              k != AttributeCloudProvider) kv.1) then none
          else some { key := kv.1, value := attributeValueToString kv.2 }) := by
    simp only [resourceAttributesToDimensions]
    rw [if_neg hcondAws, if_pos hcondGcp, if_neg hcondNE]
    rfl
  refine ⟨?_, ?_, ?_⟩
  · rw [hshape]
    rfl
  · rw [hshape, List.all_cons, Bool.and_eq_true]
    constructor
    · show ("gcp_id" != AttributeCloudAccount && "gcp_id" != AttributeHostID &&
        "gcp_id" != AttributeCloudProvider) = true
      decide
    · rw [List.all_eq_true]
      intro d hd
      exact (@mem_plainDims_key attrs (fun k =>
        k != AttributeCloudAccount && k != AttributeHostID &&
        k != AttributeCloudProvider) d hd).2
  · intro v hv
    rw [hshape]
    refine List.mem_cons_of_mem _ ?_
    exact @plainDims_mem attrs (fun k =>
      k != AttributeCloudAccount && k != AttributeHostID &&
      k != AttributeCloudProvider) AttributeCloudRegion v hv (by decide) (by decide)

/-- C6 witness: the spec's §8 example resource, with a region attribute
present and retained. -/
theorem gcp_id_dimension_witness :
    (resourceAttributesToDimensions
      [(AttributeCloudProvider, .str "gcp"), (AttributeCloudAccount, .str "acc1"),
       (AttributeHostID, .str "h1"), (AttributeCloudRegion, .str "us")]).head?
      = some { key := "gcp_id", value := "acc1_h1" }
    ∧ ({ key := AttributeCloudRegion, value := attributeValueToString (.str "us") }
        : Dimension) ∈ resourceAttributesToDimensions
      [(AttributeCloudProvider, .str "gcp"), (AttributeCloudAccount, .str "acc1"),
       (AttributeHostID, .str "h1"), (AttributeCloudRegion, .str "us")] :=
  ⟨(gcp_id_dimension
      [(AttributeCloudProvider, .str "gcp"), (AttributeCloudAccount, .str "acc1"),
       (AttributeHostID, .str "h1"), (AttributeCloudRegion, .str "us")]
      (by decide) (by decide) (by decide)).1,
   (gcp_id_dimension
      [(AttributeCloudProvider, .str "gcp"), (AttributeCloudAccount, .str "acc1"),
       (AttributeHostID, .str "h1"), (AttributeCloudRegion, .str "us")]
      (by decide) (by decide) (by decide)).2.2 (.str "us") (by decide)⟩

/-- C9: the reserved access-token key never appears as a dimension key in
the assembled resource dimension list (any provider branch), nor — since
the final sanitization pass rewrites every key through filterKeyChars,
whose image cannot contain a dot while the token key does — in the
dimensions of any point the conversion emits, whatever the converter and
input batch. -/
theorem access_token_never_emitted (attrs : AttributeMap) (c : MetricsConverter)
    (rm : ResourceMetrics) :
    ((resourceAttributesToDimensions attrs).all
        (fun d => d.key != SFxAccessTokenLabel)) = true
    ∧ ((MetricDataToSignalFxV2 c rm).all
        (fun p => p.dimensions.all (fun d => d.key != SFxAccessTokenLabel))) = true := by
  constructor
  · rw [List.all_eq_true]
    intro d hd
    rw [bne_iff_ne]
    simp only [resourceAttributesToDimensions] at hd
    split at hd
    · split at hd
      · rw [List.nil_append] at hd
        exact (@mem_plainDims_key attrs (fun _ => true) d hd).1
      · rw [List.cons_append, List.nil_append, List.mem_cons] at hd
        rcases hd with hd | hd
        · rw [hd]
          show ("AWSUniqueId" : String) ≠ SFxAccessTokenLabel
          decide
        · exact (@mem_plainDims_key attrs (fun k =>
            k != AttributeCloudAccount && k != AttributeCloudRegion &&
            k != AttributeHostID && k != AttributeCloudProvider) d hd).1
    · split at hd
      · split at hd
        · rw [List.nil_append] at hd
          exact (@mem_plainDims_key attrs (fun _ => true) d hd).1
        · rw [List.cons_append, List.nil_append, List.mem_cons] at hd
          rcases hd with hd | hd
          · rw [hd]
            show ("gcp_id" : String) ≠ SFxAccessTokenLabel
            decide
          · exact (@mem_plainDims_key attrs (fun k =>
              k != AttributeCloudAccount && k != AttributeHostID &&
              k != AttributeCloudProvider) d hd).1
      · rw [List.nil_append] at hd
        exact (@mem_plainDims_key attrs (fun _ => true) d hd).1
  · rw [List.all_eq_true]
    intro p hp
    rw [List.all_eq_true]
    intro d hd
    rw [bne_iff_ne]
    simp only [MetricDataToSignalFxV2, sanitizeDataPointDimensions] at hp
    obtain ⟨dp, _, hdp⟩ := List.mem_map.mp hp
    rw [← hdp] at hd
    simp only at hd
    obtain ⟨d0, _, hd0⟩ := List.mem_map.mp hd
    rw [← hd0]
    exact filterKeyChars_ne_accessToken d0.key

/-! ## A Go slice model for the frame property (C10)

The pure model above cannot express mutation of a shared backing array, so
the aliasing-sensitive pieces of the converter are re-embedded against an
explicit heap of arrays with Go's slice semantics: a slice is a (array id,
offset, length, capacity) header; append writes in place when capacity
remains and reallocates otherwise; copy writes element by element. -/

namespace GoSlice

/-- A Go slice header. -/
structure Slice where
  arr : Nat
  off : Nat
  len : Nat
  cap : Nat
deriving DecidableEq, Repr

/-- The heap of backing arrays; the array with id i is arrays[i], and new
arrays are allocated at the end. -/
structure Heap (α : Type) where
  arrays : List (List α)

/-- The contents of array i (empty for a dangling id). -/
def Heap.lookup {α : Type} (h : Heap α) (i : Nat) : List α :=
  h.arrays.getD i []

/-- Number of allocated arrays. -/
def Heap.size {α : Type} (h : Heap α) : Nat :=
  h.arrays.length

/-- Allocate a new array, returning its id. -/
def Heap.alloc {α : Type} (h : Heap α) (a : List α) : Nat × Heap α :=
  (h.arrays.length, ⟨h.arrays ++ [a]⟩)

/-- Overwrite element idx of array i. -/
def Heap.writeAt {α : Type} (h : Heap α) (i idx : Nat) (v : α) : Heap α :=
  ⟨h.arrays.set i ((h.lookup i).set idx v)⟩

/-- The elements a slice header denotes. -/
def readSlice {α : Type} (h : Heap α) (s : Slice) : List α :=
  ((h.lookup s.arr).drop s.off).take s.len

/-- Go make([]T, len, cap): a fresh zeroed array of the capacity. -/
def makeSlice {α : Type} (dflt : α) (len cap : Nat) (h : Heap α) : Slice × Heap α :=
  let al := h.alloc (List.replicate cap dflt)
  ({ arr := al.1, off := 0, len := len, cap := cap }, al.2)

/-- Go copy(dst, src): min(len dst, len src) elements, element by element
(the converter's uses never overlap). -/
def copySlice {α : Type} (dst src : Slice) (h : Heap α) : Heap α :=
  let srcVals := readSlice h src
  (List.range (min dst.len src.len)).foldl
    (fun hh i =>
      match srcVals[i]? with
      | some v => hh.writeAt dst.arr (dst.off + i) v
      | none => hh) h

/-- Go append(s, v): write into the backing array while spare capacity
remains, otherwise allocate a fresh larger array and copy.  (Go's exact
growth policy differs in detail; for aliasing only "a fresh array is
allocated when len = cap" matters, and any positive growth gives the same
frame behaviour.) -/
def append1 {α : Type} (dflt : α) (s : Slice) (v : α) (h : Heap α) : Slice × Heap α :=
  if s.len < s.cap then
    ({ s with len := s.len + 1 }, h.writeAt s.arr (s.off + s.len) v)
  else
    let newcap := max (s.cap * 2) (s.len + 1)
    let contents := readSlice h s ++ [v]
    let al := h.alloc (contents ++ List.replicate (newcap - contents.length) dflt)
    ({ arr := al.1, off := 0, len := s.len + 1, cap := newcap }, al.2)

/-- The Go zero value of an sfxpb.Dimension. -/
def dimZero : Dimension := { key := "", value := "" }

/-- labelsToDimensions (converter.go) against the slice heap: make a fresh
slice of length len(extraDims) and capacity labels+extraDims, copy
extraDims into it, then append one dimension per label. -/
def labelsToDimensionsH (labels : StringMap) (extraDims : Slice)
    (h : Heap Dimension) : Slice × Heap Dimension :=
  let md := makeSlice dimZero extraDims.len (labels.length + extraDims.len) h
  let h2 := copySlice md.1 extraDims md.2
  if labels.length = 0 then (md.1, h2)
  else
    labels.foldl
      (fun acc kv => append1 dimZero acc.1 { key := kv.1, value := kv.2 } acc.2)
      (md.1, h2)

/-- A flat output point whose dimensions field is a slice header into the
heap. -/
structure DataPointH where
  metric : String
  metricType : Option MetricType
  timestamp : Int
  dimensions : Slice
  value : Datum

/-- convertIntDatapoints (converter.go) against the slice heap. -/
def convertIntDatapointsH (inDps : List (Option IntDataPoint))
    (basePoint : DataPointH) (extraDims : Slice) (h : Heap Dimension) :
    List DataPointH × Heap Dimension :=
  inDps.foldl
    (fun acc o =>
      match o with
      | none => acc
      | some inDp =>
        let ld := labelsToDimensionsH inDp.labels extraDims acc.2
        (acc.1 ++ [{ basePoint with
            timestamp := timestampToSignalFx inDp.timestamp
            dimensions := ld.1
            value := { basePoint.value with intValue := some inDp.value } }], ld.2))
    ([], h)

/-- convertDoubleDatapoints (converter.go) against the slice heap. -/
def convertDoubleDatapointsH (inDps : List (Option DoubleDataPoint))
    (basePoint : DataPointH) (extraDims : Slice) (h : Heap Dimension) :
    List DataPointH × Heap Dimension :=
  inDps.foldl
    (fun acc o =>
      match o with
      | none => acc
      | some inDp =>
        let ld := labelsToDimensionsH inDp.labels extraDims acc.2
        (acc.1 ++ [{ basePoint with
            timestamp := timestampToSignalFx inDp.timestamp
            dimensions := ld.1
            value := { basePoint.value with doubleValue := some inDp.value } }], ld.2))
    ([], h)

/-- The histogram bucket loop against the slice heap: the upper_bound
dimension is appended to the freshly built per-bucket dimension slice. -/
def bucketPointsH (basePoint : DataPointH) (labels : StringMap) (extraDims : Slice)
    (bounds : List Float64) (ts : Int) :
    Nat → List Nat → Heap Dimension → List DataPointH × Heap Dimension
  | _, [], h => ([], h)
  | j, c :: rest, h =>
    let ld := labelsToDimensionsH labels extraDims h
    let ad := append1 dimZero ld.1
      { key := upperBoundDimensionKey, value := bucketBound bounds j } ld.2
    let res := bucketPointsH basePoint labels extraDims bounds ts (j + 1) rest ad.2
    ({ basePoint with
        metric := basePoint.metric ++ "_bucket"
        timestamp := ts
        dimensions := ad.1
        value := { basePoint.value with intValue := some (int64ofUInt64 c) } } :: res.1,
     res.2)

/-- The body of convertIntHistogram's loop (converter.go) against the
slice heap. -/
def convertIntHistogramPointH (histDP : IntHistogramDataPoint)
    (basePoint : DataPointH) (extraDims : Slice) (h : Heap Dimension) :
    List DataPointH × Heap Dimension :=
  let ts := timestampToSignalFx histDP.timestamp
  let cd := labelsToDimensionsH histDP.labels extraDims h
  let countDP : DataPointH :=
    { basePoint with
        metric := basePoint.metric ++ "_count"
        timestamp := ts
        dimensions := cd.1
        value := { basePoint.value with intValue := some (int64ofUInt64 histDP.count) } }
  let sd := labelsToDimensionsH histDP.labels extraDims cd.2
  let sumDP : DataPointH :=
    { basePoint with
        timestamp := ts
        dimensions := sd.1
        value := { basePoint.value with intValue := some histDP.sum } }
  if 0 < histDP.bucketCounts.length ∧
      histDP.bucketCounts.length ≠ histDP.explicitBounds.length + 1 then
    ([countDP, sumDP], sd.2)
  else
    let bp := bucketPointsH basePoint histDP.labels extraDims histDP.explicitBounds
      ts 0 histDP.bucketCounts sd.2
    ([countDP, sumDP] ++ bp.1, bp.2)

/-- convertIntHistogram (converter.go) against the slice heap. -/
def convertIntHistogramH (histDPs : List (Option IntHistogramDataPoint))
    (basePoint : DataPointH) (extraDims : Slice) (h : Heap Dimension) :
    List DataPointH × Heap Dimension :=
  histDPs.foldl
    (fun acc o =>
      match o with
      | none => acc
      | some dp =>
        let r := convertIntHistogramPointH dp basePoint extraDims acc.2
        (acc.1 ++ r.1, r.2))
    ([], h)

/-- The body of convertDoubleHistogram's loop (converter.go) against the
slice heap. -/
def convertDoubleHistogramPointH (histDP : DoubleHistogramDataPoint)
    (basePoint : DataPointH) (extraDims : Slice) (h : Heap Dimension) :
    List DataPointH × Heap Dimension :=
  let ts := timestampToSignalFx histDP.timestamp
  let cd := labelsToDimensionsH histDP.labels extraDims h
  let countDP : DataPointH :=
    { basePoint with
        metric := basePoint.metric ++ "_count"
        timestamp := ts
        dimensions := cd.1
        value := { basePoint.value with intValue := some (int64ofUInt64 histDP.count) } }
  let sd := labelsToDimensionsH histDP.labels extraDims cd.2
  let sumDP : DataPointH :=
    { basePoint with
        timestamp := ts
        dimensions := sd.1
        value := { basePoint.value with doubleValue := some histDP.sum } }
  if 0 < histDP.bucketCounts.length ∧
      histDP.bucketCounts.length ≠ histDP.explicitBounds.length + 1 then
    ([countDP, sumDP], sd.2)
  else
    let bp := bucketPointsH basePoint histDP.labels extraDims histDP.explicitBounds
      ts 0 histDP.bucketCounts sd.2
    ([countDP, sumDP] ++ bp.1, bp.2)

/-- convertDoubleHistogram (converter.go) against the slice heap. -/
def convertDoubleHistogramH (histDPs : List (Option DoubleHistogramDataPoint))
    (basePoint : DataPointH) (extraDims : Slice) (h : Heap Dimension) :
    List DataPointH × Heap Dimension :=
  histDPs.foldl
    (fun acc o =>
      match o with
      | none => acc
      | some dp =>
        let r := convertDoubleHistogramPointH dp basePoint extraDims acc.2
        (acc.1 ++ r.1, r.2))
    ([], h)

/-! ### Frame lemmas: arrays older than a bound are never written -/

/-- All arrays with id below n have the same contents in both heaps. -/
def preservedBelow {α : Type} (n : Nat) (h h2 : Heap α) : Prop :=
  ∀ i, i < n → h2.lookup i = h.lookup i

lemma preservedBelow_trans {α : Type} {n : Nat} {h1 h2 h3 : Heap α}
    (a : preservedBelow n h1 h2) (b : preservedBelow n h2 h3) :
    preservedBelow n h1 h3 :=
  fun i hi => (b i hi).trans (a i hi)

lemma lookup_alloc {α : Type} (h : Heap α) (a : List α) {i : Nat} (hi : i < h.size) :
    (h.alloc a).2.lookup i = h.lookup i := by
  unfold Heap.alloc Heap.lookup
  rw [List.getD_eq_getElem?_getD, List.getD_eq_getElem?_getD,
    List.getElem?_append_left hi]

lemma lookup_writeAt_ne {α : Type} (h : Heap α) (i idx : Nat) (v : α) {j : Nat}
    (hj : j ≠ i) : (h.writeAt i idx v).lookup j = h.lookup j := by
  unfold Heap.writeAt Heap.lookup
  rw [List.getD_eq_getElem?_getD, List.getElem?_set_ne (Ne.symm hj),
    ← List.getD_eq_getElem?_getD]

lemma size_writeAt {α : Type} (h : Heap α) (i idx : Nat) (v : α) :
    (h.writeAt i idx v).size = h.size := by
  unfold Heap.writeAt Heap.size
  exact List.length_set _ _ _

lemma copySlice_lookup_ne {α : Type} (dst src : Slice) (h : Heap α) {j : Nat}
    (hj : j ≠ dst.arr) : (copySlice dst src h).lookup j = h.lookup j := by
  unfold copySlice
  generalize readSlice h src = sv
  generalize List.range (min dst.len src.len) = idxs
  induction idxs generalizing h with
  | nil => rfl
  | cons i rest ih =>
    rw [List.foldl_cons]
    cases hsv : sv[i]? with
    | none =>
      simp only [hsv]
      exact ih _
    | some v =>
      simp only [hsv]
      exact (ih _).trans (lookup_writeAt_ne _ _ _ _ hj)

lemma copySlice_size {α : Type} (dst src : Slice) (h : Heap α) :
    (copySlice dst src h).size = h.size := by
  unfold copySlice
  generalize readSlice h src = sv
  generalize List.range (min dst.len src.len) = idxs
  induction idxs generalizing h with
  | nil => rfl
  | cons i rest ih =>
    rw [List.foldl_cons]
    cases hsv : sv[i]? with
    | none =>
      simp only [hsv]
      exact ih _
    | some v =>
      simp only [hsv]
      exact (ih _).trans (size_writeAt _ _ _ _)

lemma append1_frame {α : Type} (d : α) (s : Slice) (v : α) (h : Heap α) (n : Nat)
    (hs : n ≤ s.arr) (hn : n ≤ h.size) :
    preservedBelow n h (append1 d s v h).2 ∧ n ≤ (append1 d s v h).1.arr
      ∧ n ≤ (append1 d s v h).2.size := by
  unfold append1
  split
  · refine ⟨fun i hi => lookup_writeAt_ne _ _ _ _ (by omega), hs, ?_⟩
    show n ≤ (h.writeAt s.arr (s.off + s.len) v).size
    rw [size_writeAt]
    exact hn
  · refine ⟨fun i hi => lookup_alloc h _ (by omega), hn, ?_⟩
    show n ≤ (h.alloc _).2.size
    have : (h.alloc (readSlice h s ++ [v] ++
        List.replicate (max (s.cap * 2) (s.len + 1) - (readSlice h s ++ [v]).length) d)).2.size
        = h.size + 1 := by
      simp [Heap.alloc, Heap.size]
    omega

lemma makeSlice_facts {α : Type} (d : α) (len cap : Nat) (h : Heap α) (n : Nat)
    (hn : n ≤ h.size) :
    preservedBelow n h (makeSlice d len cap h).2
    ∧ (makeSlice d len cap h).1.arr = h.size
    ∧ (makeSlice d len cap h).2.size = h.size + 1 := by
  refine ⟨fun i hi => lookup_alloc h _ (by omega), rfl, ?_⟩
  simp [makeSlice, Heap.alloc, Heap.size]

lemma foldl_append1_frame {α β : Type} (d : α) (f : β → α) :
    ∀ (xs : List β) (p : Slice × Heap α) (n : Nat), n ≤ p.1.arr → n ≤ p.2.size →
      preservedBelow n p.2
          (xs.foldl (fun acc kv => append1 d acc.1 (f kv) acc.2) p).2
      ∧ n ≤ (xs.foldl (fun acc kv => append1 d acc.1 (f kv) acc.2) p).1.arr
      ∧ n ≤ (xs.foldl (fun acc kv => append1 d acc.1 (f kv) acc.2) p).2.size := by
  intro xs
  induction xs with
  | nil => intro p n hs hn; exact ⟨fun i _ => rfl, hs, hn⟩
  | cons x rest ih =>
    intro p n hs hn
    rw [List.foldl_cons]
    have hstep := append1_frame d p.1 (f x) p.2 n hs hn
    have hrest := ih (append1 d p.1 (f x) p.2) n hstep.2.1 hstep.2.2
    exact ⟨preservedBelow_trans hstep.1 hrest.1, hrest.2.1, hrest.2.2⟩

lemma labelsToDimensionsH_eq (labels : StringMap) (extraDims : Slice)
    (h : Heap Dimension) :
    labelsToDimensionsH labels extraDims h
      = (if labels.length = 0
          then ((makeSlice dimZero extraDims.len (labels.length + extraDims.len) h).1,
                copySlice
                  (makeSlice dimZero extraDims.len (labels.length + extraDims.len) h).1
                  extraDims
                  (makeSlice dimZero extraDims.len (labels.length + extraDims.len) h).2)
          else labels.foldl
            (fun acc kv => append1 dimZero acc.1 { key := kv.1, value := kv.2 } acc.2)
            ((makeSlice dimZero extraDims.len (labels.length + extraDims.len) h).1,
             copySlice
               (makeSlice dimZero extraDims.len (labels.length + extraDims.len) h).1
               extraDims
               (makeSlice dimZero extraDims.len (labels.length + extraDims.len) h).2)) := by
  unfold labelsToDimensionsH
  split <;> rfl

lemma labelsToDimensionsH_frame (labels : StringMap) (extraDims : Slice)
    (h : Heap Dimension) (n : Nat) (hn : n ≤ h.size) :
    preservedBelow n h (labelsToDimensionsH labels extraDims h).2
    ∧ n ≤ (labelsToDimensionsH labels extraDims h).1.arr
    ∧ n ≤ (labelsToDimensionsH labels extraDims h).2.size := by
  rw [labelsToDimensionsH_eq]
  have hmk := makeSlice_facts dimZero extraDims.len (labels.length + extraDims.len) h n hn
  generalize hmd : makeSlice dimZero extraDims.len (labels.length + extraDims.len) h = md at hmk ⊢
  have hcp_pres : preservedBelow n md.2 (copySlice md.1 extraDims md.2) :=
    fun i hi => copySlice_lookup_ne _ _ _ (by omega)
  have hcp_size : (copySlice md.1 extraDims md.2).size = md.2.size :=
    copySlice_size _ _ _
  generalize hc2 : copySlice md.1 extraDims md.2 = h2 at hcp_pres hcp_size ⊢
  split
  · refine ⟨preservedBelow_trans hmk.1 hcp_pres, ?_, ?_⟩
    · show n ≤ md.1.arr
      omega
    · show n ≤ h2.size
      omega
  · have hfold := foldl_append1_frame dimZero
      (fun kv => ({ key := kv.1, value := kv.2 } : Dimension)) labels (md.1, h2) n
      (by show n ≤ md.1.arr; omega) (by show n ≤ h2.size; omega)
    exact ⟨preservedBelow_trans (preservedBelow_trans hmk.1 hcp_pres) hfold.1,
      hfold.2.1, hfold.2.2⟩

lemma bucketPointsH_frame (basePoint : DataPointH) (labels : StringMap)
    (extraDims : Slice) (bounds : List Float64) (ts : Int) :
    ∀ (cs : List Nat) (j : Nat) (h : Heap Dimension) (n : Nat), n ≤ h.size →
      preservedBelow n h (bucketPointsH basePoint labels extraDims bounds ts j cs h).2
      ∧ n ≤ (bucketPointsH basePoint labels extraDims bounds ts j cs h).2.size := by
  intro cs
  induction cs with
  | nil => intro j h n hn; exact ⟨fun i _ => rfl, hn⟩
  | cons c rest ih =>
    intro j h n hn
    rw [bucketPointsH]
    have hld := labelsToDimensionsH_frame labels extraDims h n hn
    have had := append1_frame dimZero (labelsToDimensionsH labels extraDims h).1
      { key := upperBoundDimensionKey, value := bucketBound bounds j }
      (labelsToDimensionsH labels extraDims h).2 n hld.2.1 hld.2.2
    have hres := ih (j + 1) _ n had.2.2
    exact ⟨preservedBelow_trans (preservedBelow_trans hld.1 had.1) hres.1, hres.2⟩

lemma convertIntHistogramPointH_frame (dp : IntHistogramDataPoint)
    (basePoint : DataPointH) (extraDims : Slice) (h : Heap Dimension) (n : Nat)
    (hn : n ≤ h.size) :
    preservedBelow n h (convertIntHistogramPointH dp basePoint extraDims h).2
    ∧ n ≤ (convertIntHistogramPointH dp basePoint extraDims h).2.size := by
  unfold convertIntHistogramPointH
  have hcd := labelsToDimensionsH_frame dp.labels extraDims h n hn
  have hsd := labelsToDimensionsH_frame dp.labels extraDims
    (labelsToDimensionsH dp.labels extraDims h).2 n hcd.2.2
  split
  · exact ⟨preservedBelow_trans hcd.1 hsd.1, hsd.2.2⟩
  · have hbp := bucketPointsH_frame basePoint dp.labels extraDims dp.explicitBounds
      (timestampToSignalFx dp.timestamp) dp.bucketCounts 0 _ n hsd.2.2
    exact ⟨preservedBelow_trans (preservedBelow_trans hcd.1 hsd.1) hbp.1, hbp.2⟩

lemma convertDoubleHistogramPointH_frame (dp : DoubleHistogramDataPoint)
    (basePoint : DataPointH) (extraDims : Slice) (h : Heap Dimension) (n : Nat)
    (hn : n ≤ h.size) :
    preservedBelow n h (convertDoubleHistogramPointH dp basePoint extraDims h).2
    ∧ n ≤ (convertDoubleHistogramPointH dp basePoint extraDims h).2.size := by
  unfold convertDoubleHistogramPointH
  have hcd := labelsToDimensionsH_frame dp.labels extraDims h n hn
  have hsd := labelsToDimensionsH_frame dp.labels extraDims
    (labelsToDimensionsH dp.labels extraDims h).2 n hcd.2.2
  split
  · exact ⟨preservedBelow_trans hcd.1 hsd.1, hsd.2.2⟩
  · have hbp := bucketPointsH_frame basePoint dp.labels extraDims dp.explicitBounds
      (timestampToSignalFx dp.timestamp) dp.bucketCounts 0 _ n hsd.2.2
    exact ⟨preservedBelow_trans (preservedBelow_trans hcd.1 hsd.1) hbp.1, hbp.2⟩

lemma convertIntDatapointsH_fold_frame (basePoint : DataPointH) (extraDims : Slice) :
    ∀ (dps : List (Option IntDataPoint)) (p : List DataPointH × Heap Dimension)
      (n : Nat), n ≤ p.2.size →
      preservedBelow n p.2
        (dps.foldl
          (fun acc o =>
            match o with
            | none => acc
            | some inDp =>
              let ld := labelsToDimensionsH inDp.labels extraDims acc.2
              (acc.1 ++ [{ basePoint with
                  timestamp := timestampToSignalFx inDp.timestamp
                  dimensions := ld.1
                  value := { basePoint.value with intValue := some inDp.value } }], ld.2))
          p).2
      ∧ n ≤ (dps.foldl
          (fun acc o =>
            match o with
            | none => acc
            | some inDp =>
              let ld := labelsToDimensionsH inDp.labels extraDims acc.2
              (acc.1 ++ [{ basePoint with
                  timestamp := timestampToSignalFx inDp.timestamp
                  dimensions := ld.1
                  value := { basePoint.value with intValue := some inDp.value } }], ld.2))
          p).2.size := by
  intro dps
  induction dps with
  | nil => intro p n hp; exact ⟨fun i _ => rfl, hp⟩
  | cons o rest ih =>
    intro p n hp
    rw [List.foldl_cons]
    cases o with
    | none => exact ih p n hp
    | some dp =>
      have hld := labelsToDimensionsH_frame dp.labels extraDims p.2 n hp
      have hrest := ih
        (p.1 ++ [{ basePoint with
            timestamp := timestampToSignalFx dp.timestamp
            dimensions := (labelsToDimensionsH dp.labels extraDims p.2).1
            value := { basePoint.value with intValue := some dp.value } }],
          (labelsToDimensionsH dp.labels extraDims p.2).2) n hld.2.2
      exact ⟨preservedBelow_trans hld.1 hrest.1, hrest.2⟩

lemma convertDoubleDatapointsH_fold_frame (basePoint : DataPointH) (extraDims : Slice) :
    ∀ (dps : List (Option DoubleDataPoint)) (p : List DataPointH × Heap Dimension)
      (n : Nat), n ≤ p.2.size →
      preservedBelow n p.2
        (dps.foldl
          (fun acc o =>
            match o with
            | none => acc
            | some inDp =>
              let ld := labelsToDimensionsH inDp.labels extraDims acc.2
              (acc.1 ++ [{ basePoint with
                  timestamp := timestampToSignalFx inDp.timestamp
                  dimensions := ld.1
                  value := { basePoint.value with doubleValue := some inDp.value } }], ld.2))
          p).2
      ∧ n ≤ (dps.foldl
          (fun acc o =>
            match o with
            | none => acc
            | some inDp =>
              let ld := labelsToDimensionsH inDp.labels extraDims acc.2
              (acc.1 ++ [{ basePoint with
                  timestamp := timestampToSignalFx inDp.timestamp
                  dimensions := ld.1
                  value := { basePoint.value with doubleValue := some inDp.value } }], ld.2))
          p).2.size := by
  intro dps
  induction dps with
  | nil => intro p n hp; exact ⟨fun i _ => rfl, hp⟩
  | cons o rest ih =>
    intro p n hp
    rw [List.foldl_cons]
    cases o with
    | none => exact ih p n hp
    | some dp =>
      have hld := labelsToDimensionsH_frame dp.labels extraDims p.2 n hp
      have hrest := ih
        (p.1 ++ [{ basePoint with
            timestamp := timestampToSignalFx dp.timestamp
            dimensions := (labelsToDimensionsH dp.labels extraDims p.2).1
            value := { basePoint.value with doubleValue := some dp.value } }],
          (labelsToDimensionsH dp.labels extraDims p.2).2) n hld.2.2
      exact ⟨preservedBelow_trans hld.1 hrest.1, hrest.2⟩

lemma convertIntHistogramH_fold_frame (basePoint : DataPointH) (extraDims : Slice) :
    ∀ (dps : List (Option IntHistogramDataPoint)) (p : List DataPointH × Heap Dimension)
      (n : Nat), n ≤ p.2.size →
      preservedBelow n p.2
        (dps.foldl
          (fun acc o =>
            match o with
            | none => acc
            | some dp =>
              let r := convertIntHistogramPointH dp basePoint extraDims acc.2
              (acc.1 ++ r.1, r.2))
          p).2
      ∧ n ≤ (dps.foldl
          (fun acc o =>
            match o with
            | none => acc
            | some dp =>
              let r := convertIntHistogramPointH dp basePoint extraDims acc.2
              (acc.1 ++ r.1, r.2))
          p).2.size := by
  intro dps
  induction dps with
  | nil => intro p n hp; exact ⟨fun i _ => rfl, hp⟩
  | cons o rest ih =>
    intro p n hp
    rw [List.foldl_cons]
    cases o with
    | none => exact ih p n hp
    | some dp =>
      have hpt := convertIntHistogramPointH_frame dp basePoint extraDims p.2 n hp
      have hrest := ih
        (p.1 ++ (convertIntHistogramPointH dp basePoint extraDims p.2).1,
          (convertIntHistogramPointH dp basePoint extraDims p.2).2) n hpt.2
      exact ⟨preservedBelow_trans hpt.1 hrest.1, hrest.2⟩

lemma convertDoubleHistogramH_fold_frame (basePoint : DataPointH) (extraDims : Slice) :
    ∀ (dps : List (Option DoubleHistogramDataPoint)) (p : List DataPointH × Heap Dimension)
      (n : Nat), n ≤ p.2.size →
      preservedBelow n p.2
        (dps.foldl
          (fun acc o =>
            match o with
            | none => acc
            | some dp =>
              let r := convertDoubleHistogramPointH dp basePoint extraDims acc.2
              (acc.1 ++ r.1, r.2))
          p).2
      ∧ n ≤ (dps.foldl
          (fun acc o =>
            match o with
            | none => acc
            | some dp =>
              let r := convertDoubleHistogramPointH dp basePoint extraDims acc.2
              (acc.1 ++ r.1, r.2))
          p).2.size := by
  intro dps
  induction dps with
  | nil => intro p n hp; exact ⟨fun i _ => rfl, hp⟩
  | cons o rest ih =>
    intro p n hp
    rw [List.foldl_cons]
    cases o with
    | none => exact ih p n hp
    | some dp =>
      have hpt := convertDoubleHistogramPointH_frame dp basePoint extraDims p.2 n hp
      have hrest := ih
        (p.1 ++ (convertDoubleHistogramPointH dp basePoint extraDims p.2).1,
          (convertDoubleHistogramPointH dp basePoint extraDims p.2).2) n hpt.2
      exact ⟨preservedBelow_trans hpt.1 hrest.1, hrest.2⟩

lemma readSlice_preserved {α : Type} {h h2 : Heap α} {s : Slice}
    (hp : preservedBelow (s.arr + 1) h h2) : readSlice h2 s = readSlice h s := by
  unfold readSlice
  rw [hp s.arr (Nat.lt_succ_self _)]

/-- C10: converting data points never changes the contents of the shared
extraDims slice: the backing array it points into (and hence its length
and every entry read through it) is identical before and after each of the
four conversion functions — every per-point dimension slice is freshly
allocated, and the histogram upper_bound append lands in that fresh slice,
never in the shared one. -/
theorem extraDims_not_mutated (h : Heap Dimension) (extraDims : Slice)
    (basePoint : DataPointH)
    (idps : List (Option IntDataPoint)) (ddps : List (Option DoubleDataPoint))
    (ihdps : List (Option IntHistogramDataPoint))
    (dhdps : List (Option DoubleHistogramDataPoint))
    (hvalid : extraDims.arr < h.size) :
    readSlice (convertIntDatapointsH idps basePoint extraDims h).2 extraDims
        = readSlice h extraDims
    ∧ readSlice (convertDoubleDatapointsH ddps basePoint extraDims h).2 extraDims
        = readSlice h extraDims
    ∧ readSlice (convertIntHistogramH ihdps basePoint extraDims h).2 extraDims
        = readSlice h extraDims
    ∧ readSlice (convertDoubleHistogramH dhdps basePoint extraDims h).2 extraDims
        = readSlice h extraDims := by
  refine ⟨?_, ?_, ?_, ?_⟩
  · exact readSlice_preserved
      (convertIntDatapointsH_fold_frame basePoint extraDims idps ([], h)
        (extraDims.arr + 1) (by show extraDims.arr + 1 ≤ h.size; omega)).1
  · exact readSlice_preserved
      (convertDoubleDatapointsH_fold_frame basePoint extraDims ddps ([], h)
        (extraDims.arr + 1) (by show extraDims.arr + 1 ≤ h.size; omega)).1
  · exact readSlice_preserved
      (convertIntHistogramH_fold_frame basePoint extraDims ihdps ([], h)
        (extraDims.arr + 1) (by show extraDims.arr + 1 ≤ h.size; omega)).1
  · exact readSlice_preserved
      (convertDoubleHistogramH_fold_frame basePoint extraDims dhdps ([], h)
        (extraDims.arr + 1) (by show extraDims.arr + 1 ≤ h.size; omega)).1

/-- C10 witness: one resource dimension in array 0, one labelled point per
shape; the resource slice reads the same afterwards. -/
theorem extraDims_not_mutated_witness :
    readSlice
      (convertIntDatapointsH [some ⟨[("l", "v")], 0, 1⟩]
        ⟨"m", some .gauge, 0, ⟨0, 0, 1, 1⟩, ⟨none, none⟩⟩ ⟨0, 0, 1, 1⟩
        ⟨[[⟨"rk", "rv"⟩]]⟩).2 ⟨0, 0, 1, 1⟩
      = readSlice (⟨[[⟨"rk", "rv"⟩]]⟩ : Heap Dimension) ⟨0, 0, 1, 1⟩ :=
  (extraDims_not_mutated ⟨[[⟨"rk", "rv"⟩]]⟩ ⟨0, 0, 1, 1⟩
    ⟨"m", some .gauge, 0, ⟨0, 0, 1, 1⟩, ⟨none, none⟩⟩
    [some ⟨[("l", "v")], 0, 1⟩] [] [] [] (by decide)).1

end GoSlice

end SfxTranslation
